import Mathlib

/-!
Shallow embedding of the gorilla_vs_humans_io authoritative game server
(`src/unnamed/part_000` = collision util + MatchRoom, `src/server/systems/combat.js`,
`src/server/systems/stamina.js`), together with theorems checking the
natural-language specification against it.

Modelling conventions:
* JavaScript numbers are embedded as `ℚ` (all arithmetic used by the game code is
  `+ - * /`, `min`/`max` and comparisons, which are exact over `ℚ`); `lives` is
  embedded as `ℤ` since every write to it in the source is an integer constant or a
  decrement of an integer.
* `Math.random()` draws and randomized respawn positions are passed in as explicit
  parameters, making the nondeterminism visible in the statements.
* In-place mutation of a player object becomes functional update; the room's
  `MapSchema` of players keyed by id becomes a list with id-keyed replacement
  (`putPlayer`), which preserves the map's key-uniqueness.
* `balance.json` lives outside the repository snapshot; the hardcoded fallback
  balance table in `MatchRoom.onCreate` (which the source's comments confirm:
  "Should be 3", "Should be 10") provides the concrete role constants.
-/

namespace GvH

/-- Entity role: `"human"` or `"gorilla"`. -/
inductive Role where
  | human
  | gorilla
deriving DecidableEq, Repr

/-- Entity lifecycle state: `"playing"`, `"dead"` or `"spectating"`. -/
inductive LifeState where
  | playing
  | dead
  | spectating
deriving DecidableEq, Repr

/-- Match phase: `"lobby"`, `"countdown"`, `"round"` or `"results"`. -/
inductive Phase where
  | lobby
  | countdown
  | round
  | results
deriving DecidableEq, Repr

/-- Per-role balance constants (the keys of a role's entry in the balance table,
including the two role-specific damage keys used by the combat system). -/
structure RoleBalance where
  lives : ℤ
  health : ℚ
  crit_kill_pct : ℚ
  stamina : ℚ
  stamina_per_punch : ℚ
  regen_per_sec : ℚ
  move_speed : ℚ
  punch_cooldown_ms : ℚ
  hit_range : ℚ
  body_radius : ℚ
  gorilla_nocrit_damage : ℚ
  damage_to_gorilla : ℚ
deriving DecidableEq, Repr

/-- Gorilla balance entry, from the fallback table in `MatchRoom.onCreate`
(`damage_to_gorilla` is not a gorilla key; it is never read for this role). -/
def gorillaBalance : RoleBalance :=
  { lives := 1, health := 100, crit_kill_pct := 0, stamina := 30,
    stamina_per_punch := 1, regen_per_sec := 2, move_speed := 4,
    punch_cooldown_ms := 600, hit_range := 6/5, body_radius := 3,
    gorilla_nocrit_damage := 3, damage_to_gorilla := 0 }

/-- Human balance entry, from the fallback table in `MatchRoom.onCreate`
(`gorilla_nocrit_damage` is not a human key; it is never read for this role). -/
def humanBalance : RoleBalance :=
  { lives := 10, health := 10, crit_kill_pct := 40, stamina := 50,
    stamina_per_punch := 1, regen_per_sec := 4, move_speed := 5,
    punch_cooldown_ms := 400, hit_range := 9/10, body_radius := 1,
    gorilla_nocrit_damage := 0, damage_to_gorilla := 1 }

/-- `this.balance[role]`: the balance table indexed by role. -/
def balanceFor : Role → RoleBalance
  | Role.gorilla => gorillaBalance
  | Role.human => humanBalance

/-- A player or bot entity (`Player` schema in MatchRoom). -/
structure Player where
  id : String
  nickname : String
  role : Role
  x : ℚ
  y : ℚ
  hp : ℚ
  lives : ℤ
  st : ℚ
  state : LifeState
  isBot : Bool
  lastAttackTime : ℚ
  moveSpeed : ℚ
  punchCooldownMs : ℚ
  bodyRadius : ℚ
deriving DecidableEq, Repr

/-- A static axis-aligned rectangular obstacle (`Obstacle` schema). -/
structure Obstacle where
  x : ℚ
  y : ℚ
  width : ℚ
  height : ℚ
deriving DecidableEq, Repr

/-- A combat / assignment event record, in the array form produced by the combat
system (`['hit', ...]`, `['kill', ...]`, `['respawn', ...]`) and by
`tryAssignGorilla`.  The conversion to the wire `GameEvent` schema in
`handlePlayerInput` is a transport-layer reshaping not needed by any claim. -/
inductive GEvent where
  | hit (attackerId targetId : String) (damage : ℚ) (isCrit : Bool)
        (victimNickname attackerNickname : String)
  | kill (killerId victimId : String) (reason : String)
        (victimNickname killerNickname : String)
  | respawn (playerId : String) (livesRemaining : ℤ) (nickname : String)
  | gorillaAssigned (playerId nickname : String)
deriving DecidableEq, Repr

/-! ## Stamina system (`server/systems/stamina.js`) -/

/-- `StaminaSystem.consumeStamina(player)`: returns the boolean result together with
the (possibly) updated player.  The guards for a malformed player object or a
missing balance key cannot fire in this typed model. -/
def consumeStamina (player : Player) : Bool × Player :=
  let roleConfig := balanceFor player.role
  let cost := roleConfig.stamina_per_punch
  if player.st ≥ cost then (true, { player with st := player.st - cost })
  else (false, player)

/-- `StaminaSystem.regenerateStamina(player, deltaTimeInSeconds)`.  The guards for
a malformed player or missing balance keys cannot fire in this typed model; note
the source checks only `deltaTimeInSeconds <= 0`, not the lifecycle state. -/
def regenerateStamina (player : Player) (deltaTimeInSeconds : ℚ) : Player :=
  if deltaTimeInSeconds ≤ 0 then player
  else
    let roleConfig := balanceFor player.role
    let maxStaminaForRole := roleConfig.stamina
    let regenRatePerSecond := roleConfig.regen_per_sec
    if player.st < maxStaminaForRole then
      let amountToRegen := regenRatePerSecond * deltaTimeInSeconds
      let st1 := player.st + amountToRegen
      { player with st := if st1 > maxStaminaForRole then maxStaminaForRole else st1 }
    else player

/-! ## Combat system (`server/systems/combat.js`) -/

/-- `this.playerBodyRadii` as built in the `CombatSystem` constructor from the
balance table's `body_radius` keys (gorilla 3, human 1). -/
def playerBodyRadii : Role → ℚ
  | Role.gorilla => 3
  | Role.human => 1

/-- `MatchRoom.respawnPlayer(player)`, the callback handed to the combat system:
full hp and stamina for the new life, a re-randomized position (passed in here as
`pos`), and state `"playing"`. -/
def respawnPlayer (pos : ℚ × ℚ) (player : Player) : Player :=
  let config := balanceFor player.role
  { player with hp := config.health, st := config.stamina,
                x := pos.1, y := pos.2, state := LifeState.playing }

/-- `CombatSystem._applyDamageAndEffects(attacker, victim)`.  `roll` stands for the
`Math.random()` draw of this hit and `pos` for the randomized respawn position
used by the `respawnPlayer` callback.  Returns the updated victim and the emitted
event list. -/
def applyDamageAndEffects (roll : ℚ) (pos : ℚ × ℚ) (attacker victim : Player) :
    Player × List GEvent :=
  if attacker.role = Role.gorilla ∧ victim.role = Role.human then
    let critChance := humanBalance.crit_kill_pct / 100
    let nonCritDamage := gorillaBalance.gorilla_nocrit_damage
    let maxHpForNewLife := humanBalance.health
    if roll < critChance then
      let damageDealt := victim.hp +
        (if victim.lives > 0 then ((victim.lives - 1 : ℤ) : ℚ) * maxHpForNewLife else 0)
      ({ victim with lives := 0, hp := 0, state := LifeState.dead },
       [GEvent.hit attacker.id victim.id damageDealt true victim.nickname attacker.nickname,
        GEvent.kill attacker.id victim.id "gorilla_crit" victim.nickname attacker.nickname])
    else
      let hp1 := victim.hp - nonCritDamage
      let hitEv := GEvent.hit attacker.id victim.id nonCritDamage false
        victim.nickname attacker.nickname
      if hp1 ≤ 0 then
        let lives1 := victim.lives - 1
        if lives1 > 0 then
          (respawnPlayer pos { victim with hp := maxHpForNewLife, lives := lives1 },
           [hitEv, GEvent.respawn victim.id lives1 victim.nickname])
        else
          ({ victim with hp := 0, lives := lives1, state := LifeState.dead },
           [hitEv, GEvent.kill attacker.id victim.id "gorilla_damage"
              victim.nickname attacker.nickname])
      else ({ victim with hp := hp1 }, [hitEv])
  else if attacker.role = Role.human ∧ victim.role = Role.gorilla then
    let nonCritDamage := humanBalance.damage_to_gorilla
    let critChance := gorillaBalance.crit_kill_pct / 100
    if roll < critChance then
      let damageDealt := victim.hp
      ({ victim with hp := 0, state := LifeState.dead },
       [GEvent.hit attacker.id victim.id damageDealt true victim.nickname attacker.nickname,
        GEvent.kill attacker.id victim.id "human_crit" victim.nickname attacker.nickname])
    else
      let hp1 := victim.hp - nonCritDamage
      let hitEv := GEvent.hit attacker.id victim.id nonCritDamage false
        victim.nickname attacker.nickname
      if hp1 ≤ 0 then
        ({ victim with hp := 0, state := LifeState.dead },
         [hitEv, GEvent.kill attacker.id victim.id "human_damage"
            victim.nickname attacker.nickname])
      else ({ victim with hp := hp1 }, [hitEv])
  else (victim, [])

/-- The loop body of `CombatSystem.handleAttackAction`, keeping source iteration
order.  `i` indexes the target position in the room list; `rolls i` / `pos i` are
the random draws consumed when that target is hit.  The `typeof` guards on
positions/radii cannot fire in this typed model. -/
def attackScan (rolls : ℕ → ℚ) (pos : ℕ → ℚ × ℚ) (attacker : Player) :
    List Player → ℕ → List Player × List GEvent
  | [], _ => ([], [])
  | target :: rest, i =>
    let tailResult := attackScan rolls pos attacker rest (i + 1)
    if target.id = attacker.id ∨ target.state = LifeState.dead then
      (target :: tailResult.1, tailResult.2)
    else
      let dx := attacker.x - target.x
      let dy := attacker.y - target.y
      let distanceSq := dx * dx + dy * dy
      let attackerPunchRadius :=
        if attacker.role = Role.gorilla then gorillaBalance.hit_range
        else humanBalance.hit_range
      let combinedRadius := attackerPunchRadius + playerBodyRadii target.role
      if distanceSq < combinedRadius * combinedRadius then
        let outcome := applyDamageAndEffects (rolls i) (pos i) attacker target
        (outcome.1 :: tailResult.1, outcome.2 ++ tailResult.2)
      else (target :: tailResult.1, tailResult.2)

/-- `CombatSystem.handleAttackAction(attacker, allPlayersInRoom)`: scans every
other live player for a punch-circle overlap and applies damage to each hit,
returning the updated room list together with the broadcast events. -/
def handleAttackAction (rolls : ℕ → ℚ) (pos : ℕ → ℚ × ℚ) (attacker : Player)
    (allPlayersInRoom : List Player) : List Player × List GEvent :=
  if attacker.state = LifeState.dead then (allPlayersInRoom, [])
  else attackScan rolls pos attacker allPlayersInRoom 0

/-! ## Collision primitive and movement resolver (`part_000`: collision util +
`MatchRoom.handlePlayerInput` move branch) -/

/-- `circleRectCollision(cx, cy, rad, rx, ry, rw, rh)`.  The source clamps the
circle center to the rectangle and tests `sqrt(distX² + distY²) <= rad`; over the
reals that is equivalent to `0 ≤ rad ∧ distX² + distY² ≤ rad²`, which is the exact
`ℚ` form used here. -/
def circleRectCollision (cx cy rad rx ry rw rh : ℚ) : Prop :=
  let testX := if cx < rx then rx else if cx > rx + rw then rx + rw else cx
  let testY := if cy < ry then ry else if cy > ry + rh then ry + rh else cy
  let distX := cx - testX
  let distY := cy - testY
  0 ≤ rad ∧ distX * distX + distY * distY ≤ rad * rad

instance (cx cy rad rx ry rw rh : ℚ) :
    Decidable (circleRectCollision cx cy rad rx ry rw rh) := by
  unfold circleRectCollision; infer_instance

/-- A `for ... of` obstacle scan with `break` on the first collision. -/
def firstCollidingObstacle : List Obstacle → ℚ → ℚ → ℚ → Option Obstacle
  | [], _, _, _ => none
  | obs :: rest, cx, cy, rad =>
    if circleRectCollision cx cy rad obs.x obs.y obs.width obs.height then some obs
    else firstCollidingObstacle rest cx cy rad

/-- `Math.max(bodyRadius, Math.min(limit - bodyRadius, v))`: the map-boundary
clamp applied throughout the move branch (`limit` is `MAP_WIDTH`/`MAP_HEIGHT`,
both 100). -/
def clampToMap (bodyRadius limit v : ℚ) : ℚ :=
  max bodyRadius (min (limit - bodyRadius) v)

/-- The move branch of `MatchRoom.handlePlayerInput` (lines 294-384): per-axis
input clamping, tick displacement, boundary clamp, sequential-axis obstacle
resolution with snap-to-edge, and the axis-only slide fallback when both axes
collided.  Returns the final position together with the `collisionX`/`collisionY`
flags. -/
def moveResolveFlags (obstacles : List Obstacle) (player : Player) (dx dy : ℚ) :
    (ℚ × ℚ) × (Bool × Bool) :=
  let normalizedDx := max (-1) (min 1 dx)
  let normalizedDy := max (-1) (min 1 dy)
  let moveDistance := player.moveSpeed * (1/10)
  let newX := player.x + normalizedDx * moveDistance
  let newY := player.y + normalizedDy * moveDistance
  let proposedX0 := clampToMap player.bodyRadius 100 newX
  let proposedY0 := clampToMap player.bodyRadius 100 newY
  let xScan := firstCollidingObstacle obstacles proposedX0 player.y player.bodyRadius
  let proposedX1 :=
    match xScan with
    | some obs =>
        if normalizedDx > 0 then obs.x - player.bodyRadius - 1/100
        else if normalizedDx < 0 then obs.x + obs.width + player.bodyRadius + 1/100
        else player.x
    | none => proposedX0
  let proposedX := clampToMap player.bodyRadius 100 proposedX1
  let yScan := firstCollidingObstacle obstacles proposedX proposedY0 player.bodyRadius
  let proposedY1 :=
    match yScan with
    | some obs =>
        if normalizedDy > 0 then obs.y - player.bodyRadius - 1/100
        else if normalizedDy < 0 then obs.y + obs.height + player.bodyRadius + 1/100
        else player.y
    | none => proposedY0
  let proposedY := clampToMap player.bodyRadius 100 proposedY1
  let finalPos :=
    if xScan.isSome ∧ yScan.isSome then
      let tempY := clampToMap player.bodyRadius 100 (player.y + normalizedDy * moveDistance)
      if (firstCollidingObstacle obstacles player.x tempY player.bodyRadius).isNone then
        (player.x, tempY)
      else
        let tempX := clampToMap player.bodyRadius 100 (player.x + normalizedDx * moveDistance)
        if (firstCollidingObstacle obstacles tempX player.y player.bodyRadius).isNone then
          (tempX, player.y)
        else (player.x, player.y)
    else (proposedX, proposedY)
  (finalPos, (xScan.isSome, yScan.isSome))

/-- The final position committed by the move branch. -/
def moveResolve (obstacles : List Obstacle) (player : Player) (dx dy : ℚ) : ℚ × ℚ :=
  (moveResolveFlags obstacles player dx dy).1

/-! ## Match room state and operations (`part_000`: MatchRoom) -/

/-- The state slices of `GameState`/`MatchRoom` that the claims touch.
`resultsReason` records the payload of the `game_over` broadcast issued by
`startResultsPhase` (a transport message in the source). -/
structure RoomState where
  gamePhase : Phase
  roundTime : ℚ
  countdown : ℚ
  players : List Player
  gorillaQueue : List String
  events : List GEvent
  mapObstacles : List Obstacle
  gorillaPlayerId : Option String
  totalHumanLives : ℤ
  resultsReason : Option String
deriving Repr

/-- `this.state.players.get(id)`. -/
def getPlayer (players : List Player) (id : String) : Option Player :=
  players.find? fun p => p.id = id

/-- `this.state.players.set(p.id, p)` under the map-keyed-by-id reading: replace
the entry with this id, or append if absent. -/
def putPlayer (players : List Player) (p : Player) : List Player :=
  if players.any (fun q => q.id = p.id) then
    players.map fun q => if q.id = p.id then p else q
  else players ++ [p]

/-- `MatchRoom.setPlayerDefaults(player)`: role-derived stats and a re-randomized
in-bounds position; `u, v` stand for the two `Math.random()` draws. -/
def setPlayerDefaults (u v : ℚ) (player : Player) : Player :=
  let config := balanceFor player.role
  let bodyRadius := config.body_radius
  { player with
      hp := config.health, lives := config.lives, st := config.stamina,
      moveSpeed := config.move_speed, punchCooldownMs := config.punch_cooldown_ms,
      bodyRadius := bodyRadius, state := LifeState.playing,
      x := u * (100 - 2 * bodyRadius) + bodyRadius,
      y := v * (100 - 2 * bodyRadius) + bodyRadius }

/-- `MatchRoom.startResultsPhase(result)`: switch to `results`, reuse `countdown`
for the 15s results timer, and broadcast `game_over` with the reason. -/
def startResultsPhase (result : String) (s : RoomState) : RoomState :=
  { s with gamePhase := Phase.results, countdown := 15, resultsReason := some result }

/-- `MatchRoom.tryAssignGorilla()`: when a candidate is queued and no gorilla is
assigned, shift the FIFO head; if that session is still in the room it becomes
the gorilla (with gorilla defaults) and a `gorilla_assigned` event is pushed. -/
def tryAssignGorilla (u v : ℚ) (s : RoomState) : RoomState :=
  match s.gorillaQueue, s.gorillaPlayerId with
  | newGorillaId :: restQueue, none =>
    match getPlayer s.players newGorillaId with
    | some gorillaPlayer =>
      let g := setPlayerDefaults u v { gorillaPlayer with role := Role.gorilla }
      { s with players := putPlayer s.players g,
               gorillaQueue := restQueue,
               gorillaPlayerId := some newGorillaId,
               events := s.events ++ [GEvent.gorillaAssigned newGorillaId gorillaPlayer.nickname] }
    | none => { s with gorillaQueue := restQueue }
  | _, _ => s

/-- `MatchRoom.handleGorillaLeave()`: drop the current gorilla id; during `round`
force a humans-win results transition, during `lobby`/`countdown` try to promote
the next queued candidate; finally the defensive revert of a still-present former
gorilla to human.  `u, v` stand for the spawn-position draws of the inner
`setPlayerDefaults` calls. -/
def handleGorillaLeave (u v : ℚ) (s : RoomState) : RoomState :=
  let oldGorillaId := s.gorillaPlayerId
  let s1 := { s with gorillaPlayerId := none }
  let s2 :=
    if s1.gamePhase = Phase.round then startResultsPhase "humans_win_gorilla_left" s1
    else if s1.gamePhase = Phase.lobby ∨ s1.gamePhase = Phase.countdown then
      tryAssignGorilla u v s1
    else s1
  match oldGorillaId with
  | some oid =>
    match getPlayer s2.players oid with
    | some formerGorillaPlayer =>
      if formerGorillaPlayer.role = Role.gorilla then
        let reverted := setPlayerDefaults u v { formerGorillaPlayer with role := Role.human }
        { s2 with players := putPlayer s2.players reverted }
      else s2
    | none => s2
  | none => s2

/-- `MatchRoom.handleRoleSelection(client, message)`. -/
def handleRoleSelection (u v : ℚ) (s : RoomState) (sessionId desiredRole : String) :
    RoomState :=
  match getPlayer s.players sessionId with
  | none => s
  | some player =>
    if desiredRole = "gorilla" then
      let queue1 :=
        if s.gorillaQueue.contains sessionId then s.gorillaQueue
        else s.gorillaQueue ++ [sessionId]
      let s1 := { s with gorillaQueue := queue1 }
      if s1.gamePhase = Phase.lobby ∧ s1.gorillaPlayerId = none then
        tryAssignGorilla u v s1
      else s1
    else if desiredRole = "human" then
      let s1 := { s with
        gorillaQueue := s.gorillaQueue.erase sessionId,
        players := putPlayer s.players
          (setPlayerDefaults u v { player with role := Role.human }) }
      if s1.gorillaPlayerId = some sessionId then handleGorillaLeave u v s1 else s1
    else s

/-- The `Player` constructor's defaults followed by the id/nickname/role
assignments of `MatchRoom.onJoin` (the constructor's random position is
immediately overwritten by `setPlayerDefaults`, so it is left at 0 here). -/
def newPlayer (sessionId nickname : String) : Player :=
  { id := sessionId, nickname := nickname, role := Role.human, x := 0, y := 0,
    hp := 10, lives := 10, st := 50, state := LifeState.playing, isBot := false,
    lastAttackTime := 0, moveSpeed := 5, punchCooldownMs := 400, bodyRadius := 1 }

/-- `MatchRoom.onJoin(client, options)`. -/
def onJoin (u v : ℚ) (s : RoomState) (sessionId nickname : String) : RoomState :=
  { s with players := putPlayer s.players (setPlayerDefaults u v (newPlayer sessionId nickname)) }

/-- `MatchRoom.onLeave(client, consented)`: remove the player and its queue entry,
then run gorilla-vacancy handling if it held the role.  (The AI system's internal
scheduling map is not part of the shared room state and is not modelled.) -/
def onLeave (u v : ℚ) (s : RoomState) (sessionId : String) : RoomState :=
  match getPlayer s.players sessionId with
  | none => s
  | some _ =>
    let s1 := { s with
      players := s.players.filter (fun p => p.id ≠ sessionId),
      gorillaQueue := s.gorillaQueue.erase sessionId }
    if s1.gorillaPlayerId = some sessionId then handleGorillaLeave u v s1 else s1

/-- `MatchRoom.addNewBotToState(botData)` for the bot record synthesized by
`AIBotSystem.spawnBots`: `Player` constructor defaults overridden by the bot data
(id, position, human stats, `isBot`), then the room fills in the human
move/cooldown/radius stats. -/
def addNewBotToState (botId : String) (pos : ℚ × ℚ) (s : RoomState) : RoomState :=
  let player : Player :=
    { id := botId, nickname := "Player", role := Role.human, x := pos.1, y := pos.2,
      hp := humanBalance.health, lives := humanBalance.lives, st := humanBalance.stamina,
      state := LifeState.playing, isBot := true, lastAttackTime := 0,
      moveSpeed := humanBalance.move_speed, punchCooldownMs := humanBalance.punch_cooldown_ms,
      bodyRadius := humanBalance.body_radius }
  { s with players := putPlayer s.players player }

/-- `AIBotSystem.spawnBots(allPlayers, targetTotalHumans)` with the room's target
of 10: spawn one bot per unit of human deficit.  `botSupply i` stands for the
generated id and validated spawn position of the `i`-th new bot. -/
def spawnBots (botSupply : ℕ → String × ℚ × ℚ) (s : RoomState) : RoomState :=
  let humanPlayers := s.players.filter fun p => p.role = Role.human ∧ p.isBot = false
  let botsToSpawnCount : ℤ := 10 - humanPlayers.length
  (List.range botsToSpawnCount.toNat).foldl
    (fun acc i => addNewBotToState (botSupply i).1 (botSupply i).2 acc) s

/-- The `players.forEach` reset loop of `startRound`: every player gets role
defaults (position draws `spawn i` for the `i`-th player) and state `playing`
(redundantly, as `setPlayerDefaults` already sets it). -/
def resetPlayersFrom (spawn : ℕ → ℚ × ℚ) : ℕ → List Player → List Player
  | _, [] => []
  | i, p :: rest =>
    { (setPlayerDefaults (spawn i).1 (spawn i).2 p) with state := LifeState.playing } ::
      resetPlayersFrom spawn (i + 1) rest

/-- `MatchRoom.startRound()`: enter `round`, reset every player to role defaults
(`spawn i` are the `i`-th player's position draws), re-ensure the gorilla (with
draws `ug, vg`; missing gorilla falls back to `handleGorillaLeave` or reverts to
`lobby`), then top up bots. -/
def startRound (spawn : ℕ → ℚ × ℚ) (ug vg : ℚ) (botSupply : ℕ → String × ℚ × ℚ)
    (s : RoomState) : RoomState :=
  let s1 := { s with gamePhase := Phase.round, roundTime := 0 }
  let players1 := resetPlayersFrom spawn 0 s1.players
  let s2 := { s1 with players := players1 }
  match s2.gorillaPlayerId with
  | some gid =>
    match getPlayer s2.players gid with
    | some gorilla =>
      let g := setPlayerDefaults ug vg { gorilla with role := Role.gorilla }
      spawnBots botSupply { s2 with players := putPlayer s2.players g }
    | none => handleGorillaLeave ug vg s2
  | none => { s2 with gamePhase := Phase.lobby }

/-- A client/bot input message: `{ t:"i", dx, dy }` (move) or `{ t:"a" }`
(attack). -/
inductive InputAction where
  | move (dx dy : ℚ)
  | attack
deriving DecidableEq, Repr

/-- `MatchRoom.handlePlayerInput(playerId, action)`.  `now` is
`this.clock.currentTime`; `rolls`/`respawnPos` feed the combat system's random
draws.  Events are stored in their combat array form (the `GameEvent` wire
conversion is transport-layer reshaping). -/
def handlePlayerInput (now : ℚ) (rolls : ℕ → ℚ) (respawnPos : ℕ → ℚ × ℚ)
    (s : RoomState) (playerId : String) (action : InputAction) : RoomState :=
  match getPlayer s.players playerId with
  | none => s
  | some player =>
    if player.state = LifeState.dead ∨ player.state = LifeState.spectating then s
    else if s.gamePhase ≠ Phase.round then s
    else
      match action with
      | InputAction.move dx dy =>
        let finalPos := moveResolve s.mapObstacles player dx dy
        { s with players := putPlayer s.players { player with x := finalPos.1, y := finalPos.2 } }
      | InputAction.attack =>
        if now - player.lastAttackTime ≥ player.punchCooldownMs then
          let consumed := consumeStamina player
          if consumed.1 then
            let attacker := { consumed.2 with lastAttackTime := now }
            let players1 := putPlayer s.players attacker
            let outcome := handleAttackAction rolls respawnPos attacker players1
            { s with players := outcome.1, events := s.events ++ outcome.2 }
          else s
        else s

/-! ## Round tick (`MatchRoom.updateRound`) -/

/-- The stamina-regeneration pass at the top of `updateRound`: the caller gates on
`player.state === "playing"` before invoking `regenerateStamina`. -/
def regenerateAllPlaying (dt : ℚ) (players : List Player) : List Player :=
  players.map fun player =>
    if player.state = LifeState.playing then regenerateStamina player dt else player

/-- `currentTotalHumanLives` as accumulated in `updateRound` over humans that are
neither dead nor spectating. -/
def currentTotalHumanLivesOf (players : List Player) : ℤ :=
  players.foldl
    (fun acc p =>
      if p.role = Role.human ∧ p.state ≠ LifeState.dead ∧ p.state ≠ LifeState.spectating then
        acc + p.lives
      else acc) 0

/-- `aliveHumansCount` as accumulated in `updateRound`: humans neither dead nor
spectating with `lives > 0`. -/
def aliveHumansCountOf (players : List Player) : ℕ :=
  players.foldl
    (fun acc p =>
      if p.role = Role.human ∧ p.state ≠ LifeState.dead ∧ p.state ≠ LifeState.spectating ∧
          p.lives > 0 then
        acc + 1
      else acc) 0

/-- The player-roster pipeline of one `updateRound` tick before win-condition
evaluation: stamina regeneration for playing entities, then the AI-bot pass.
`botStep` abstracts `AIBotSystem.updateBots`, which only mutates existing players
by routing synthesized move/attack inputs through `handlePlayerInput` (it never
adds or removes roster entries); it runs only when a playing gorilla exists. -/
def roundTickPlayers (dt : ℚ) (botStep : List Player → List Player) (s : RoomState) :
    List Player :=
  let players1 := regenerateAllPlaying dt s.players
  match s.gorillaPlayerId with
  | some gid =>
    match getPlayer players1 gid with
    | some gorillaPlayer =>
      if gorillaPlayer.state = LifeState.playing then botStep players1 else players1
    | none => players1
  | none => players1

/-- `MatchRoom.updateRound(deltaSeconds)` (lines 752-795): advance the round
clock, regenerate stamina, run bots, recompute the aggregate human-lives counter
and evaluate the win conditions in source order (gorilla down → `humans_win`;
humans out → `gorilla_wins`; 300s clock → `gorilla_wins_time_up`/`draw_time_up`). -/
def updateRound (dt : ℚ) (botStep : List Player → List Player) (s : RoomState) :
    RoomState :=
  let players2 := roundTickPlayers dt botStep s
  let currentTotalHumanLives := currentTotalHumanLivesOf players2
  let aliveHumansCount := aliveHumansCountOf players2
  let s1 := { s with roundTime := s.roundTime + dt, players := players2,
                     totalHumanLives := currentTotalHumanLives }
  let gorillaPlayer := s1.gorillaPlayerId.bind (getPlayer players2)
  match gorillaPlayer with
  | some gp =>
    if gp.hp ≤ 0 ∨ gp.state = LifeState.dead then startResultsPhase "humans_win" s1
    else if currentTotalHumanLives ≤ 0 ∧ aliveHumansCount = 0 then
      startResultsPhase "gorilla_wins" s1
    else if s1.roundTime ≥ 300 then
      startResultsPhase
        (if currentTotalHumanLives > 0 then "gorilla_wins_time_up" else "draw_time_up") s1
    else s1
  | none =>
    if currentTotalHumanLives ≤ 0 ∧ aliveHumansCount = 0 then
      startResultsPhase "gorilla_wins" s1
    else if s1.roundTime ≥ 300 then
      startResultsPhase
        (if currentTotalHumanLives > 0 then "gorilla_wins_time_up" else "draw_time_up") s1
    else s1

/-- The freshly created `GameState` of `MatchRoom.onCreate`, including the two
example obstacles pushed there. -/
def initialRoomState : RoomState :=
  { gamePhase := Phase.lobby, roundTime := 0, countdown := 5, players := [],
    gorillaQueue := [], events := [],
    mapObstacles := [⟨20, 20, 10, 60⟩, ⟨70, 20, 10, 60⟩],
    gorillaPlayerId := none, totalHumanLives := 0, resultsReason := none }

/-! ## Derived predicates used by the theorems -/

/-- The role's maximum health (`balance[role].health`). -/
def maxHp (r : Role) : ℚ := (balanceFor r).health

/-- The health/lives range invariant of the spec: `0 ≤ hp ≤ maxHp(role)` and
`lives ≥ 0`. -/
def HpLivesInv (p : Player) : Prop :=
  0 ≤ p.hp ∧ p.hp ≤ maxHp p.role ∧ 0 ≤ p.lives

/-- A non-dead entity holds at least one life (the coupling the combat code
maintains between `lives` and the `dead` state). -/
def AliveHasLife (p : Player) : Prop :=
  p.state ≠ LifeState.dead → 1 ≤ p.lives

instance : DecidablePred HpLivesInv := fun p => by unfold HpLivesInv; infer_instance

instance : DecidablePred AliveHasLife := fun p => by unfold AliveHasLife; infer_instance

/-- A sequence of resolved attacks: each action selects an attacker by room index
(skipped if out of range, as a dead or absent attacker produces no effect) and
supplies the random draws for that call to `handleAttackAction`. -/
def attackSeq : List ((ℕ → ℚ) × (ℕ → ℚ × ℚ) × ℕ) → List Player → List Player
  | [], room => room
  | act :: rest, room =>
    let room1 :=
      match room.get? act.2.2 with
      | some attacker => (handleAttackAction act.1 act.2.1 attacker room).1
      | none => room
    attackSeq rest room1

lemma applyDamage_preserves_inv (roll : ℚ) (pos : ℚ × ℚ) (attacker victim : Player)
    (h1 : HpLivesInv victim) (h2 : AliveHasLife victim)
    (hnd : victim.state ≠ LifeState.dead) :
    HpLivesInv (applyDamageAndEffects roll pos attacker victim).1 ∧
      AliveHasLife (applyDamageAndEffects roll pos attacker victim).1 := by
  obtain ⟨hhp0, hhpM, hlv⟩ := h1
  have hlv1 : 1 ≤ victim.lives := h2 hnd
  rw [maxHp] at hhpM
  simp only [HpLivesInv, AliveHasLife, maxHp]
  cases hA : attacker.role <;> cases hV : victim.role <;>
    rw [hV] at hhpM <;>
    simp only [applyDamageAndEffects, respawnPlayer, hA, hV, and_self, and_true, true_and,
      and_false, false_and, reduceCtorEq, ite_false, ite_true, not_false_eq_true,
      if_true, if_false, balanceFor, humanBalance, gorillaBalance] at hhpM ⊢
  · -- human → human: no effect
    exact ⟨⟨hhp0, hhpM, hlv⟩, fun _ => hlv1⟩
  · -- human → gorilla
    split_ifs with hcrit hdead <;> dsimp only <;>
      refine ⟨⟨?_, ?_, ?_⟩, fun hst => ?_⟩ <;>
      first
      | omega
      | linarith
  · -- gorilla → human
    split_ifs with hcrit hdead hlives <;> dsimp only <;>
      refine ⟨⟨?_, ?_, ?_⟩, fun hst => ?_⟩ <;>
      first
      | omega
      | linarith
      | exact absurd rfl hst
  · -- gorilla → gorilla: no effect
    exact ⟨⟨hhp0, hhpM, hlv⟩, fun _ => hlv1⟩

lemma attackScan_preserves_inv (rolls : ℕ → ℚ) (pos : ℕ → ℚ × ℚ) (attacker : Player)
    (room : List Player) (i : ℕ)
    (h : ∀ p ∈ room, HpLivesInv p ∧ AliveHasLife p) :
    ∀ p ∈ (attackScan rolls pos attacker room i).1, HpLivesInv p ∧ AliveHasLife p := by
  induction room generalizing i with
  | nil => intro p hp; simp [attackScan] at hp
  | cons target rest ih =>
    have htarget := h target (by simp)
    have hrest : ∀ p ∈ rest, HpLivesInv p ∧ AliveHasLife p := fun p hp => h p (by simp [hp])
    intro p hp
    simp only [attackScan] at hp
    have hnd : ¬(target.id = attacker.id ∨ target.state = LifeState.dead) →
        target.state ≠ LifeState.dead :=
      fun hskip hdead => hskip (Or.inr hdead)
    split_ifs at hp <;>
      rcases List.mem_cons.1 hp with rfl | hp' <;>
      first
      | exact htarget
      | exact ih (i + 1) hrest p hp'
      | exact applyDamage_preserves_inv (rolls i) (pos i) attacker target
          htarget.1 htarget.2 (hnd (by assumption))

lemma handleAttackAction_preserves_inv (rolls : ℕ → ℚ) (pos : ℕ → ℚ × ℚ)
    (attacker : Player) (room : List Player)
    (h : ∀ p ∈ room, HpLivesInv p ∧ AliveHasLife p) :
    ∀ p ∈ (handleAttackAction rolls pos attacker room).1, HpLivesInv p ∧ AliveHasLife p := by
  unfold handleAttackAction
  split_ifs
  · exact h
  · exact attackScan_preserves_inv rolls pos attacker room 0 h

/-- Claim C1 (amended): starting from entities that satisfy `0 ≤ hp ≤ maxHp(role)`
and `lives ≥ 0` and additionally hold at least one life whenever they are not
dead, every sequence of attacks resolved by `CombatSystem.handleAttackAction`
leaves every entity satisfying all of those properties: no damage branch leaves
hp negative or above the role's max health, and no branch leaves lives negative.
(Without the non-dead-implies-a-life assumption the `victim.lives--` branch can
drive `lives` of a playing zero-life entity to `-1`; see the counterexample.) -/
theorem attackSeq_preserves_hp_lives_inv
    (acts : List ((ℕ → ℚ) × (ℕ → ℚ × ℚ) × ℕ)) (room : List Player)
    (h : ∀ p ∈ room, HpLivesInv p ∧ AliveHasLife p) :
    ∀ p ∈ attackSeq acts room, HpLivesInv p ∧ AliveHasLife p := by
  induction acts generalizing room with
  | nil => simpa [attackSeq] using h
  | cons act rest ih =>
    rw [attackSeq]
    apply ih
    match hw : room.get? act.2.2 with
    | some attacker =>
      simp only [hw]
      exact handleAttackAction_preserves_inv act.1 act.2.1 attacker room h
    | none => simpa [hw] using h

/-- A gorilla attacker at the arena center with full stats. -/
def sampleGorilla : Player :=
  { id := "g1", nickname := "G", role := Role.gorilla, x := 50, y := 50, hp := 100,
    lives := 1, st := 30, state := LifeState.playing, isBot := false,
    lastAttackTime := 0, moveSpeed := 4, punchCooldownMs := 600, bodyRadius := 3 }

/-- A playing human with `hp = 3` and `lives = 0`: it satisfies
`0 ≤ hp ≤ maxHp(role)` and `lives ≥ 0`, the whole precondition of claim C1 as
stated. -/
def zeroLivesHuman : Player :=
  { id := "h1", nickname := "H", role := Role.human, x := 50, y := 50, hp := 3,
    lives := 0, st := 50, state := LifeState.playing, isBot := false,
    lastAttackTime := 0, moveSpeed := 5, punchCooldownMs := 400, bodyRadius := 1 }

/-- Counterexample to claim C1 as stated: both entities satisfy
`0 ≤ hp ≤ maxHp(role) ∧ lives ≥ 0`, yet after a single non-crit gorilla attack
(`roll = 1`) the human's `lives` is `-1`: the `victim.lives--` branch of
`_applyDamageAndEffects` leaves lives negative for a playing entity that had
zero lives. -/
theorem attackSeq_lives_negative_cex :
    (HpLivesInv sampleGorilla ∧ HpLivesInv zeroLivesHuman) ∧
      (attackSeq [(fun _ => 1, fun _ => (50, 50), 0)]
        [sampleGorilla, zeroLivesHuman]).map Player.lives = [1, -1] := by
  refine ⟨by decide, ?_⟩
  norm_num [attackSeq, handleAttackAction, attackScan, applyDamageAndEffects,
    sampleGorilla, zeroLivesHuman, playerBodyRadii, gorillaBalance, humanBalance,
    respawnPlayer]
  simp

/-- Closed instance of the amended claim C1: starting from a full-stats gorilla
and human (which satisfy the strengthened invariant), after one resolved attack
the hit human (now at hp 7) still satisfies it. -/
theorem attackSeq_preserves_hp_lives_inv_witness :
    HpLivesInv { zeroLivesHuman with lives := 10, hp := 7 } ∧
      AliveHasLife { zeroLivesHuman with lives := 10, hp := 7 } :=
  attackSeq_preserves_hp_lives_inv [(fun _ => 1, fun _ => (50, 50), 0)]
    [sampleGorilla, { zeroLivesHuman with lives := 10, hp := 10 }] (by decide)
    { zeroLivesHuman with lives := 10, hp := 7 } (by
      norm_num [attackSeq, handleAttackAction, attackScan, applyDamageAndEffects,
        sampleGorilla, zeroLivesHuman, playerBodyRadii, gorillaBalance, humanBalance,
        respawnPlayer]
      simp)

/-- Claim C2: when a gorilla's attack hits a human target and the critical roll
fails, the resolver subtracts the gorilla's fixed non-crit damage (3) from the
victim's hp and emits one `hit` event; if the resulting hp ≤ 0 and the victim has
more than one life, lives decreases by exactly 1, hp resets to the human max
health (10), a `respawn` event is emitted and the victim stays `playing`; if it
was the last life, lives becomes 0, hp becomes 0, state becomes `dead`, and a
`kill` event with reason `gorilla_damage` is emitted. -/
theorem applyDamageAndEffects_gorilla_noncrit (roll : ℚ) (pos : ℚ × ℚ)
    (attacker victim : Player) (hatk : attacker.role = Role.gorilla)
    (hvic : victim.role = Role.human)
    (hroll : ¬ roll < humanBalance.crit_kill_pct / 100) :
    (0 < victim.hp - 3 →
      (applyDamageAndEffects roll pos attacker victim).1 = { victim with hp := victim.hp - 3 } ∧
      (applyDamageAndEffects roll pos attacker victim).2 =
        [GEvent.hit attacker.id victim.id 3 false victim.nickname attacker.nickname]) ∧
    (victim.hp - 3 ≤ 0 → 1 < victim.lives →
      (applyDamageAndEffects roll pos attacker victim).1.lives = victim.lives - 1 ∧
      (applyDamageAndEffects roll pos attacker victim).1.hp = 10 ∧
      (applyDamageAndEffects roll pos attacker victim).1.state = LifeState.playing ∧
      (applyDamageAndEffects roll pos attacker victim).2 =
        [GEvent.hit attacker.id victim.id 3 false victim.nickname attacker.nickname,
         GEvent.respawn victim.id (victim.lives - 1) victim.nickname]) ∧
    (victim.hp - 3 ≤ 0 → victim.lives = 1 →
      (applyDamageAndEffects roll pos attacker victim).1.lives = 0 ∧
      (applyDamageAndEffects roll pos attacker victim).1.hp = 0 ∧
      (applyDamageAndEffects roll pos attacker victim).1.state = LifeState.dead ∧
      (applyDamageAndEffects roll pos attacker victim).2 =
        [GEvent.hit attacker.id victim.id 3 false victim.nickname attacker.nickname,
         GEvent.kill attacker.id victim.id "gorilla_damage" victim.nickname attacker.nickname]) := by
  have hroll' : ¬ roll < 40 / 100 := by simpa [humanBalance] using hroll
  refine ⟨fun hhp => ?_, fun hhp hlv => ?_, fun hhp hlv => ?_⟩ <;>
    simp only [applyDamageAndEffects, respawnPlayer, hatk, hvic, balanceFor,
      gorillaBalance, humanBalance, eq_self_iff_true, and_self, if_true, ite_true,
      if_neg hroll']
  · rw [if_neg (by linarith : ¬ victim.hp - 3 ≤ 0)]
    exact ⟨rfl, rfl⟩
  · rw [if_pos hhp, if_pos (by omega : victim.lives - 1 > 0)]
    exact ⟨rfl, rfl, rfl, rfl⟩
  · rw [if_pos hhp, if_neg (by omega : ¬ victim.lives - 1 > 0)]
    refine ⟨?_, rfl, rfl, rfl⟩
    dsimp only
    omega

/-- Closed instance of claim C2: a full-health human (hp 10) takes a non-crit hit
to hp 7 with exactly one `hit` event; at hp 3 with 10 lives it respawns to hp 10
with 9 lives; at hp 3 with 1 life it dies with a `gorilla_damage` kill event. -/
theorem applyDamageAndEffects_gorilla_noncrit_witness :
    ((applyDamageAndEffects 1 (50, 50) sampleGorilla
        { zeroLivesHuman with lives := 10, hp := 10 }).1 =
      { zeroLivesHuman with lives := 10, hp := 7 } ∧
     (applyDamageAndEffects 1 (50, 50) sampleGorilla
        { zeroLivesHuman with lives := 10, hp := 10 }).2 =
      [GEvent.hit "g1" "h1" 3 false "H" "G"]) ∧
    ((applyDamageAndEffects 1 (50, 50) sampleGorilla
        { zeroLivesHuman with lives := 10, hp := 3 }).1.lives = 9 ∧
     (applyDamageAndEffects 1 (50, 50) sampleGorilla
        { zeroLivesHuman with lives := 10, hp := 3 }).1.hp = 10) ∧
    ((applyDamageAndEffects 1 (50, 50) sampleGorilla
        { zeroLivesHuman with lives := 1, hp := 3 }).1.state = LifeState.dead ∧
     (applyDamageAndEffects 1 (50, 50) sampleGorilla
        { zeroLivesHuman with lives := 1, hp := 3 }).2 =
      [GEvent.hit "g1" "h1" 3 false "H" "G",
       GEvent.kill "g1" "h1" "gorilla_damage" "H" "G"]) := by
  have h1 := applyDamageAndEffects_gorilla_noncrit 1 (50, 50) sampleGorilla
    { zeroLivesHuman with lives := 10, hp := 10 } rfl rfl
    (by norm_num [humanBalance])
  have h2 := applyDamageAndEffects_gorilla_noncrit 1 (50, 50) sampleGorilla
    { zeroLivesHuman with lives := 10, hp := 3 } rfl rfl
    (by norm_num [humanBalance])
  have h3 := applyDamageAndEffects_gorilla_noncrit 1 (50, 50) sampleGorilla
    { zeroLivesHuman with lives := 1, hp := 3 } rfl rfl
    (by norm_num [humanBalance])
  refine ⟨?_, ?_, ?_⟩
  · have := h1.1 (by norm_num [zeroLivesHuman])
    constructor
    · rw [this.1]; norm_num [zeroLivesHuman]
    · rw [this.2]; norm_num [sampleGorilla, zeroLivesHuman]
  · have := h2.2.1 (by norm_num [zeroLivesHuman]) (by norm_num [zeroLivesHuman])
    constructor
    · rw [this.1]; norm_num [zeroLivesHuman]
    · rw [this.2.1]
  · have := h2.2.2
    have h3x := h3.2.2 (by norm_num [zeroLivesHuman]) (by norm_num [zeroLivesHuman])
    constructor
    · rw [h3x.2.2.1]
    · rw [h3x.2.2.2]; norm_num [sampleGorilla, zeroLivesHuman]

/-- The combat scan's qualification test for a target, combining the skip guard
and the strict squared-distance check of `handleAttackAction`. -/
def qualifiesTarget (attacker target : Player) : Prop :=
  target.id ≠ attacker.id ∧ target.state ≠ LifeState.dead ∧
    (attacker.x - target.x) * (attacker.x - target.x) +
        (attacker.y - target.y) * (attacker.y - target.y) <
      ((if attacker.role = Role.gorilla then gorillaBalance.hit_range
        else humanBalance.hit_range) + playerBodyRadii target.role) *
      ((if attacker.role = Role.gorilla then gorillaBalance.hit_range
        else humanBalance.hit_range) + playerBodyRadii target.role)

instance (attacker target : Player) : Decidable (qualifiesTarget attacker target) := by
  unfold qualifiesTarget; infer_instance

lemma attackScan_getElem? (rolls : ℕ → ℚ) (pos : ℕ → ℚ × ℚ) (attacker : Player)
    (room : List Player) (i j : ℕ) :
    (attackScan rolls pos attacker room i).1[j]? =
      room[j]?.map (fun t =>
        if qualifiesTarget attacker t then
          (applyDamageAndEffects (rolls (i + j)) (pos (i + j)) attacker t).1
        else t) := by
  induction room generalizing i j with
  | nil => simp [attackScan]
  | cons target rest ih =>
    simp only [attackScan]
    by_cases hskip : target.id = attacker.id ∨ target.state = LifeState.dead
    · rw [if_pos hskip]
      rcases j with _ | j
      · have hnq : ¬ qualifiesTarget attacker target := by
          unfold qualifiesTarget
          push_neg at hskip ⊢
          tauto
        simp [hnq]
      · have hrec := ih (i + 1) j
        rw [show i + 1 + j = i + (j + 1) from by omega] at hrec
        simpa using hrec
    · rw [if_neg hskip]
      push_neg at hskip
      by_cases hdist : (attacker.x - target.x) * (attacker.x - target.x) +
          (attacker.y - target.y) * (attacker.y - target.y) <
          ((if attacker.role = Role.gorilla then gorillaBalance.hit_range
            else humanBalance.hit_range) + playerBodyRadii target.role) *
          ((if attacker.role = Role.gorilla then gorillaBalance.hit_range
            else humanBalance.hit_range) + playerBodyRadii target.role)
      · rw [if_pos hdist]
        rcases j with _ | j
        · have hq : qualifiesTarget attacker target := ⟨hskip.1, hskip.2, hdist⟩
          simp [hq]
        · have hrec := ih (i + 1) j
          rw [show i + 1 + j = i + (j + 1) from by omega] at hrec
          simpa using hrec
      · rw [if_neg hdist]
        rcases j with _ | j
        · have hnq : ¬ qualifiesTarget attacker target := fun hq => hdist hq.2.2
          simp [hnq]
        · have hrec := ih (i + 1) j
          rw [show i + 1 + j = i + (j + 1) from by omega] at hrec
          simpa using hrec

/-- Claim C6: in a single `handleAttackAction` call by a non-dead attacker,
damage resolution is applied to every target that is not the attacker, not dead,
and whose squared center distance is strictly below
`(attacker hit range + target body radius)²` — the scan has no early exit, so the
`j`-th room entry is damaged iff it qualifies, independently of the other
entries. -/
theorem handleAttackAction_hits_every_target (rolls : ℕ → ℚ) (pos : ℕ → ℚ × ℚ)
    (attacker : Player) (room : List Player)
    (hnd : attacker.state ≠ LifeState.dead) (j : ℕ) :
    (handleAttackAction rolls pos attacker room).1[j]? =
      room[j]?.map (fun t =>
        if qualifiesTarget attacker t then
          (applyDamageAndEffects (rolls j) (pos j) attacker t).1
        else t) := by
  unfold handleAttackAction
  rw [if_neg hnd]
  simpa using attackScan_getElem? rolls pos attacker room 0 j

/-- A second human, standing next to the first one, also inside the gorilla's
punch circle. -/
def secondHuman : Player :=
  { zeroLivesHuman with id := "h2", nickname := "H2", x := 51, lives := 10, hp := 10 }

/-- Closed instance of claim C6: with two live humans both overlapping the
gorilla's punch circle, a single attack damages the second one as well (index 2
of the room list drops from hp 10 to hp 7) — no early exit after the first hit. -/
theorem handleAttackAction_hits_every_target_witness :
    (handleAttackAction (fun _ => 1) (fun _ => (50, 50)) sampleGorilla
        [sampleGorilla, { zeroLivesHuman with lives := 10, hp := 10 }, secondHuman]).1[2]? =
      some { secondHuman with hp := 7 } := by
  rw [handleAttackAction_hits_every_target (fun _ => 1) (fun _ => (50, 50)) sampleGorilla
    [sampleGorilla, { zeroLivesHuman with lives := 10, hp := 10 }, secondHuman]
    (by decide) 2]
  norm_num [qualifiesTarget, applyDamageAndEffects, secondHuman, zeroLivesHuman,
    sampleGorilla, playerBodyRadii, gorillaBalance, humanBalance]
  exact ⟨by decide, by decide⟩

/-- Claim C4: an attack input from a playing entity during the round phase whose
cooldown has elapsed but whose stamina is strictly below the role's per-punch
cost is a complete no-op: `consumeStamina` returns false leaving stamina
unchanged, and `handlePlayerInput` leaves the room state (players, events,
`lastAttackTime`) exactly as it was. -/
theorem insufficient_stamina_attack_noop (now : ℚ) (rolls : ℕ → ℚ)
    (pos : ℕ → ℚ × ℚ) (s : RoomState) (playerId : String) (player : Player)
    (hfind : getPlayer s.players playerId = some player)
    (hplaying : player.state = LifeState.playing)
    (hphase : s.gamePhase = Phase.round)
    (hcool : now - player.lastAttackTime ≥ player.punchCooldownMs)
    (hst : player.st < (balanceFor player.role).stamina_per_punch) :
    (consumeStamina player).1 = false ∧ (consumeStamina player).2 = player ∧
      handlePlayerInput now rolls pos s playerId InputAction.attack = s := by
  have hcs : consumeStamina player = (false, player) := by
    simp only [consumeStamina]
    rw [if_neg (not_le.mpr hst)]
  refine ⟨by rw [hcs], by rw [hcs], ?_⟩
  simp only [handlePlayerInput, hfind]
  rw [if_neg (by simp [hplaying])]
  rw [if_neg (by simp [hphase])]
  rw [if_pos hcool, hcs]
  simp

/-- A playing full-health human with zero stamina. -/
def lowStaminaHuman : Player := { zeroLivesHuman with lives := 10, hp := 10, st := 0 }

/-- A round-phase room containing only `lowStaminaHuman`. -/
def attackTestState : RoomState :=
  { initialRoomState with gamePhase := Phase.round, players := [lowStaminaHuman] }

/-- Closed instance of claim C4: the zero-stamina human's attack after cooldown
consumes nothing and leaves the room state unchanged. -/
theorem insufficient_stamina_attack_noop_witness :
    (consumeStamina lowStaminaHuman).1 = false ∧
      handlePlayerInput 400 (fun _ => 1) (fun _ => (50, 50)) attackTestState "h1"
        InputAction.attack = attackTestState := by
  have h := insufficient_stamina_attack_noop 400 (fun _ => 1) (fun _ => (50, 50))
    attackTestState "h1" lowStaminaHuman (by decide) (by decide) rfl
    (by norm_num [lowStaminaHuman, zeroLivesHuman])
    (by norm_num [lowStaminaHuman, zeroLivesHuman, balanceFor, humanBalance])
  exact ⟨h.1, h.2.2⟩

/-- A dead human with depleted stamina. -/
def deadHuman : Player :=
  { zeroLivesHuman with lives := 0, hp := 0, st := 0, state := LifeState.dead }

/-- Counterexample to claim C9 as stated: `regenerateStamina` itself checks only
`deltaTimeInSeconds <= 0`, not the lifecycle state, so a dead entity's stamina
regenerates from 0 to 4 after one second — the function is not a no-op for
entities outside the `playing` state. -/
theorem regenerateStamina_dead_entity_cex :
    deadHuman.state ≠ LifeState.playing ∧ deadHuman.st = 0 ∧
      (regenerateStamina deadHuman 1).st = 4 := by
  refine ⟨by decide, by decide, ?_⟩
  norm_num [regenerateStamina, deadHuman, zeroLivesHuman, balanceFor, humanBalance]

/-- Claim C9 (amended): `regenerateStamina(entity, dt)` increases stamina by
`regen_per_sec(role) * dt` clamped to the role's max pool — so any sequence of
regenerate calls starting at or below the max never exceeds it — and it is a
no-op for zero or negative `dt`.  The playing-state gate belongs to the caller:
`updateRound`'s regeneration pass invokes it only for playing entities, leaving
every non-playing entity untouched. -/
theorem regenerateStamina_props (player : Player) (dt : ℚ) :
    (dt ≤ 0 → regenerateStamina player dt = player) ∧
    (0 < dt → player.st ≤ (balanceFor player.role).stamina →
      (regenerateStamina player dt).st =
        min ((balanceFor player.role).stamina)
          (player.st + (balanceFor player.role).regen_per_sec * dt)) ∧
    (player.st ≤ (balanceFor player.role).stamina →
      ∀ dts : List ℚ,
        (dts.foldl regenerateStamina player).st ≤
          (balanceFor (dts.foldl regenerateStamina player).role).stamina) ∧
    (∀ players : List Player, ∀ j : ℕ, ∀ q, players[j]? = some q →
      q.state ≠ LifeState.playing → (regenerateAllPlaying dt players)[j]? = some q) := by
  have hrate : (0 : ℚ) ≤ (balanceFor player.role).regen_per_sec := by
    rcases player.role <;> norm_num [balanceFor, gorillaBalance, humanBalance]
  have hrole : ∀ (q : Player) (d : ℚ), (regenerateStamina q d).role = q.role := by
    intro q d
    simp only [regenerateStamina]
    split_ifs <;> rfl
  have hbound : ∀ (q : Player) (d : ℚ), q.st ≤ (balanceFor q.role).stamina →
      (regenerateStamina q d).st ≤ (balanceFor q.role).stamina := by
    intro q d hq
    simp only [regenerateStamina]
    split_ifs <;> (try dsimp only) <;> linarith
  have hfold : ∀ (dts : List ℚ) (q : Player), q.st ≤ (balanceFor q.role).stamina →
      (dts.foldl regenerateStamina q).st ≤
        (balanceFor (dts.foldl regenerateStamina q).role).stamina := by
    intro dts
    induction dts with
    | nil => intro q hq; simpa using hq
    | cons d rest ih =>
      intro q hq
      simp only [List.foldl_cons]
      refine ih (regenerateStamina q d) ?_
      rw [hrole q d]
      exact hbound q d hq
  refine ⟨fun hdt => ?_, fun hdt hle => ?_, fun hle dts => ?_, fun players j q hj hq => ?_⟩
  · simp only [regenerateStamina, if_pos hdt]
  · simp only [regenerateStamina, if_neg (not_le.mpr hdt)]
    rcases lt_or_eq_of_le hle with hlt | heq
    · rw [if_pos hlt]
      dsimp only
      rcases le_or_lt (player.st + (balanceFor player.role).regen_per_sec * dt)
        ((balanceFor player.role).stamina) with hc | hc
      · rw [if_neg (not_lt.mpr hc), min_eq_right hc]
      · rw [if_pos hc, min_eq_left (le_of_lt hc)]
    · rw [if_neg (by rw [heq]; exact lt_irrefl _)]
      have : (balanceFor player.role).stamina ≤
          player.st + (balanceFor player.role).regen_per_sec * dt := by nlinarith
      rw [min_eq_left this, heq]
  · exact hfold dts player hle
  · simp only [regenerateAllPlaying, List.getElem?_map, hj]
    simp [hq]

/-- Closed instance of the amended claim C9: the zero-stamina playing human
regenerates to 4 stamina after one second, regenerates nothing for `dt = -1`,
and two one-second steps from stamina 49 stay at the 50 cap. -/
theorem regenerateStamina_props_witness :
    (regenerateStamina lowStaminaHuman (-1)) = lowStaminaHuman ∧
      (regenerateStamina lowStaminaHuman 1).st = 4 ∧
      (([1, 1] : List ℚ).foldl regenerateStamina
          { lowStaminaHuman with st := 49 }).st ≤ 50 := by
  refine ⟨(regenerateStamina_props lowStaminaHuman (-1)).1 (by norm_num), ?_, ?_⟩
  · have h := (regenerateStamina_props lowStaminaHuman 1).2.1 (by norm_num)
      (by norm_num [lowStaminaHuman, zeroLivesHuman, balanceFor, humanBalance])
    rw [h]
    norm_num [lowStaminaHuman, zeroLivesHuman, balanceFor, humanBalance]
  · have h := (regenerateStamina_props { lowStaminaHuman with st := 49 } 1).2.2.1
      (by norm_num [lowStaminaHuman, zeroLivesHuman, balanceFor, humanBalance]) [1, 1]
    have hrole : (([1, 1] : List ℚ).foldl regenerateStamina
        { lowStaminaHuman with st := 49 }).role = Role.human := by
      norm_num [List.foldl_cons, List.foldl_nil, regenerateStamina, lowStaminaHuman,
        zeroLivesHuman, balanceFor, humanBalance]
    rw [hrole] at h
    simpa [balanceFor, humanBalance] using h

/-! ## Movement bounds (claims C5 and C10) -/

/-- The position bounds established by the boundary clamp: within the 100×100 map
shrunk by the entity's body radius. -/
def InBounds (p : Player) : Prop :=
  p.bodyRadius ≤ p.x ∧ p.x ≤ 100 - p.bodyRadius ∧
    p.bodyRadius ≤ p.y ∧ p.y ≤ 100 - p.bodyRadius

instance : DecidablePred InBounds := fun p => by unfold InBounds; infer_instance

lemma clampToMap_le (r v : ℚ) (hr : r ≤ 100 - r) :
    r ≤ clampToMap r 100 v ∧ clampToMap r 100 v ≤ 100 - r := by
  unfold clampToMap
  exact ⟨le_max_left _ _, max_le hr (min_le_left _ _)⟩

lemma clampToMap_close (r v x : ℚ) (hx1 : r ≤ x) (hx2 : x ≤ 100 - r) :
    |clampToMap r 100 v - x| ≤ |v - x| := by
  unfold clampToMap
  rcases le_total v r with h1 | h1
  · rw [min_eq_right (by linarith), max_eq_left h1,
      abs_of_nonpos (by linarith), abs_of_nonpos (by linarith)]
    linarith
  · rcases le_total v (100 - r) with h2 | h2
    · rw [min_eq_right h2, max_eq_right h1]
    · rw [min_eq_left h2, max_eq_right (by linarith),
        abs_of_nonneg (by linarith), abs_of_nonneg (by linarith)]
      linarith

lemma mem_putPlayer {ps : List Player} {p q : Player} (hq : q ∈ putPlayer ps p) :
    q = p ∨ (q ∈ ps ∧ q.id ≠ p.id) := by
  unfold putPlayer at hq
  split_ifs at hq with hany
  · rcases List.mem_map.1 hq with ⟨a, ha, hfa⟩
    by_cases h : a.id = p.id
    · left; rw [← hfa, if_pos h]
    · right; rw [← hfa, if_neg h]; exact ⟨ha, h⟩
  · rcases List.mem_append.1 hq with h | h
    · right
      refine ⟨h, fun hid => ?_⟩
      exact hany (List.any_eq_true.2 ⟨q, h, by simpa using hid⟩)
    · left; simpa using h

lemma moveResolve_inBounds (obstacles : List Obstacle) (player : Player) (dx dy : ℚ)
    (h : InBounds player) :
    player.bodyRadius ≤ (moveResolve obstacles player dx dy).1 ∧
      (moveResolve obstacles player dx dy).1 ≤ 100 - player.bodyRadius ∧
      player.bodyRadius ≤ (moveResolve obstacles player dx dy).2 ∧
      (moveResolve obstacles player dx dy).2 ≤ 100 - player.bodyRadius := by
  obtain ⟨hx1, hx2, hy1, hy2⟩ := h
  have hr : player.bodyRadius ≤ 100 - player.bodyRadius := le_trans hx1 hx2
  simp only [moveResolve, moveResolveFlags]
  split_ifs <;> dsimp only <;>
    exact ⟨by first | exact hx1 | exact (clampToMap_le _ _ hr).1,
           by first | exact hx2 | exact (clampToMap_le _ _ hr).2,
           by first | exact hy1 | exact (clampToMap_le _ _ hr).1,
           by first | exact hy2 | exact (clampToMap_le _ _ hr).2⟩

/-- Claim C10: `setPlayerDefaults` spawns entities inside the body-radius-shrunk
map bounds (for random draws in `[0, 1]`), and every branch of
`handlePlayerInput`'s move resolver — boundary clamp, obstacle snap, axis-only
slide, full revert — keeps an in-bounds entity in bounds. -/
theorem handlePlayerInput_move_preserves_bounds :
    (∀ (u v : ℚ) (p : Player), 0 ≤ u → u ≤ 1 → 0 ≤ v → v ≤ 1 →
      InBounds (setPlayerDefaults u v p)) ∧
    (∀ (now : ℚ) (rolls : ℕ → ℚ) (pos : ℕ → ℚ × ℚ) (s : RoomState)
      (playerId : String) (dx dy : ℚ), (∀ p ∈ s.players, InBounds p) →
      ∀ q ∈ (handlePlayerInput now rolls pos s playerId
        (InputAction.move dx dy)).players, InBounds q) := by
  constructor
  · intro u v p hu1 hu2 hv1 hv2
    cases hR : p.role <;>
      · simp only [InBounds, setPlayerDefaults, hR, balanceFor, humanBalance, gorillaBalance]
        norm_num
        refine ⟨by nlinarith, by nlinarith, by nlinarith, by nlinarith⟩
  · intro now rolls pos s playerId dx dy h q hq
    unfold handlePlayerInput at hq
    cases hfind : getPlayer s.players playerId with
    | none => rw [hfind] at hq; exact h q hq
    | some player =>
      rw [hfind] at hq
      dsimp only at hq
      have hmem : player ∈ s.players := List.mem_of_find?_eq_some hfind
      split_ifs at hq
      · exact h q hq
      · exact h q hq
      · rcases mem_putPlayer hq with rfl | ⟨hq', _⟩
        · have := moveResolve_inBounds s.mapObstacles player dx dy (h player hmem)
          exact ⟨this.1, this.2.1, this.2.2.1, this.2.2.2⟩
        · exact h q hq'

/-- Closed instance of claim C10: the zero-stamina human spawned by
`setPlayerDefaults` with draws 0 and 1 is in bounds, and after a diagonal move
input in `attackTestState` the moved player (at (50.5, 50.5)) is in bounds. -/
theorem handlePlayerInput_move_preserves_bounds_witness :
    InBounds (setPlayerDefaults 0 1 lowStaminaHuman) ∧
      InBounds { lowStaminaHuman with x := 101/2, y := 101/2 } := by
  constructor
  · exact handlePlayerInput_move_preserves_bounds.1 0 1 lowStaminaHuman
      le_rfl zero_le_one zero_le_one le_rfl
  · refine handlePlayerInput_move_preserves_bounds.2 400 (fun _ => 1) (fun _ => (50, 50))
      attackTestState "h1" 1 1
      (by norm_num [attackTestState, initialRoomState, lowStaminaHuman, zeroLivesHuman,
        InBounds]) _ ?_
    have hg : getPlayer attackTestState.players "h1" = some lowStaminaHuman := by decide
    have hmv : moveResolve attackTestState.mapObstacles lowStaminaHuman 1 1 =
        (101/2, 101/2) := by
      norm_num [moveResolve, moveResolveFlags, firstCollidingObstacle,
        circleRectCollision, clampToMap, attackTestState, initialRoomState,
        lowStaminaHuman, zeroLivesHuman]
    simp only [handlePlayerInput, hg]
    rw [if_neg (by decide), if_neg (by decide)]
    dsimp only
    rw [hmv]
    simp [putPlayer, attackTestState, initialRoomState, lowStaminaHuman, zeroLivesHuman]

lemma attackTestState_move_eval :
    handlePlayerInput 400 (fun _ => 1) (fun _ => (50, 50)) attackTestState "h1"
      (InputAction.move 1 1) =
    { attackTestState with players := [{ lowStaminaHuman with x := 101/2, y := 101/2 }] } := by
  have hg : getPlayer attackTestState.players "h1" = some lowStaminaHuman := by decide
  have hmv : moveResolve attackTestState.mapObstacles lowStaminaHuman 1 1 =
      (101/2, 101/2) := by
    norm_num [moveResolve, moveResolveFlags, firstCollidingObstacle,
      circleRectCollision, clampToMap, attackTestState, initialRoomState,
      lowStaminaHuman, zeroLivesHuman]
  simp only [handlePlayerInput, hg]
  rw [if_neg (by decide), if_neg (by decide)]
  rw [hmv]
  simp [putPlayer, attackTestState, initialRoomState, lowStaminaHuman, zeroLivesHuman]

/-- Counterexample to claim C5 as stated: the server clamps the input vector
per-axis but does not normalize it, so the diagonal input `(1, 1)` moves the
human from (50, 50) to (50.5, 50.5): squared displacement `1/2`, strictly above
`(moveSpeed * 0.1)² = 1/4` — the Euclidean displacement exceeds
`moveSpeed * 0.1` by a factor of √2. -/
theorem move_displacement_exceeds_bound_cex :
    (getPlayer (handlePlayerInput 400 (fun _ => 1) (fun _ => (50, 50)) attackTestState "h1"
        (InputAction.move 1 1)).players "h1").map
      (fun q => (q.x - 50)^2 + (q.y - 50)^2) = some (1/2) ∧
      (lowStaminaHuman.moveSpeed * (1/10))^2 < 1/2 := by
  rw [attackTestState_move_eval]
  constructor
  · norm_num [getPlayer, attackTestState, initialRoomState, lowStaminaHuman, zeroLivesHuman]
  · norm_num [lowStaminaHuman, zeroLivesHuman]

/-- Claim C5 (amended): for a move input applied to an in-bounds entity, when no
obstacle collision is detected on either axis the per-axis displacement is at
most `moveSpeed * 0.1` and the squared Euclidean displacement is at most
`2 * (moveSpeed * 0.1)²` (reached by unnormalized diagonal input — the claimed
bound `moveSpeed * 0.1` itself fails, see the counterexample); when both axes
collide, the axis-only slide fallback keeps the squared displacement within
`(moveSpeed * 0.1)²`.  (A single-axis obstacle snap can exceed these bounds by
design: it teleports the entity to the obstacle's edge.) -/
theorem moveResolve_displacement_bounds (obstacles : List Obstacle) (player : Player)
    (dx dy : ℚ) (hms : 0 ≤ player.moveSpeed)
    (hx1 : player.bodyRadius ≤ player.x) (hx2 : player.x ≤ 100 - player.bodyRadius)
    (hy1 : player.bodyRadius ≤ player.y) (hy2 : player.y ≤ 100 - player.bodyRadius) :
    ((moveResolveFlags obstacles player dx dy).2 = (false, false) →
      |(moveResolve obstacles player dx dy).1 - player.x| ≤ player.moveSpeed * (1/10) ∧
      |(moveResolve obstacles player dx dy).2 - player.y| ≤ player.moveSpeed * (1/10) ∧
      ((moveResolve obstacles player dx dy).1 - player.x)^2 +
        ((moveResolve obstacles player dx dy).2 - player.y)^2 ≤
        2 * (player.moveSpeed * (1/10))^2) ∧
    ((moveResolveFlags obstacles player dx dy).2 = (true, true) →
      ((moveResolve obstacles player dx dy).1 - player.x)^2 +
        ((moveResolve obstacles player dx dy).2 - player.y)^2 ≤
        (player.moveSpeed * (1/10))^2) := by
  have hmd0 : 0 ≤ player.moveSpeed * (1/10) := by positivity
  have hclose : ∀ v z : ℚ, player.bodyRadius ≤ z → z ≤ 100 - player.bodyRadius →
      |v - z| ≤ player.moveSpeed * (1/10) →
      |clampToMap player.bodyRadius 100 v - z| ≤ player.moveSpeed * (1/10) :=
    fun v z hz1 hz2 hv => le_trans (clampToMap_close _ v z hz1 hz2) hv
  have hnorm : ∀ d : ℚ, |max (-1) (min 1 d) * (player.moveSpeed * (1/10))| ≤
      player.moveSpeed * (1/10) := by
    intro d
    rw [abs_mul, abs_of_nonneg hmd0]
    have h1 : -1 ≤ max (-1) (min 1 d) := le_max_left _ _
    have h2 : max (-1) (min 1 d) ≤ 1 := max_le (by norm_num) (min_le_left _ _)
    have : |max (-1) (min 1 d)| ≤ 1 := abs_le.mpr ⟨h1, h2⟩
    nlinarith [abs_nonneg (max (-1) (min 1 d))]
  have hsq : ∀ a b : ℚ, |a| ≤ b → a^2 ≤ b^2 := by
    intro a b hab
    have := abs_le.mp hab
    nlinarith
  simp only [moveResolve, moveResolveFlags]
  cases hxs : firstCollidingObstacle obstacles
      (clampToMap player.bodyRadius 100
        (player.x + max (-1) (min 1 dx) * (player.moveSpeed * (1/10))))
      player.y player.bodyRadius with
  | none =>
    dsimp only
    cases hys : firstCollidingObstacle obstacles
        (clampToMap player.bodyRadius 100
          (clampToMap player.bodyRadius 100
            (player.x + max (-1) (min 1 dx) * (player.moveSpeed * (1/10)))))
        (clampToMap player.bodyRadius 100
          (player.y + max (-1) (min 1 dy) * (player.moveSpeed * (1/10))))
        player.bodyRadius with
    | none =>
      dsimp only
      constructor
      · intro _
        rw [if_neg (by simp)]
        dsimp only
        have hdx : |clampToMap player.bodyRadius 100
            (clampToMap player.bodyRadius 100
              (player.x + max (-1) (min 1 dx) * (player.moveSpeed * (1/10)))) - player.x| ≤
            player.moveSpeed * (1/10) := by
          refine hclose _ _ hx1 hx2 (hclose _ _ hx1 hx2 ?_)
          simpa using hnorm dx
        have hdy : |clampToMap player.bodyRadius 100
            (clampToMap player.bodyRadius 100
              (player.y + max (-1) (min 1 dy) * (player.moveSpeed * (1/10)))) - player.y| ≤
            player.moveSpeed * (1/10) := by
          refine hclose _ _ hy1 hy2 (hclose _ _ hy1 hy2 ?_)
          simpa using hnorm dy
        refine ⟨hdx, hdy, ?_⟩
        have h1 := hsq _ _ hdx
        have h2 := hsq _ _ hdy
        linarith
      · intro hf
        simp at hf
    | some obs2 =>
      dsimp only
      constructor
      · intro hf
        simp at hf
      · intro hf
        simp at hf
  | some obs =>
    dsimp only
    constructor
    · intro hf
      simp at hf
    · intro hf
      rw [if_pos ⟨rfl, by simpa using congrArg Prod.snd hf⟩]
      split_ifs <;> dsimp only
      · have hdy : |clampToMap player.bodyRadius 100
            (player.y + max (-1) (min 1 dy) * (player.moveSpeed * (1/10))) - player.y| ≤
            player.moveSpeed * (1/10) := by
          refine hclose _ _ hy1 hy2 ?_
          simpa using hnorm dy
        have h2 := hsq _ _ hdy
        simp only [sub_self]
        nlinarith
      · have hdx : |clampToMap player.bodyRadius 100
            (player.x + max (-1) (min 1 dx) * (player.moveSpeed * (1/10))) - player.x| ≤
            player.moveSpeed * (1/10) := by
          refine hclose _ _ hx1 hx2 ?_
          simpa using hnorm dx
        have h1 := hsq _ _ hdx
        simp only [sub_self]
        nlinarith
      · simp only [sub_self]
        nlinarith

/-- Closed instance of the amended claim C5: the diagonal obstacle-free move in
`attackTestState` stays within the per-axis bound 0.5 and the Euclidean-squared
bound `2 * 0.25`. -/
theorem moveResolve_displacement_bounds_witness :
    |(moveResolve attackTestState.mapObstacles lowStaminaHuman 1 1).1 -
        lowStaminaHuman.x| ≤ lowStaminaHuman.moveSpeed * (1/10) ∧
      ((moveResolve attackTestState.mapObstacles lowStaminaHuman 1 1).1 -
          lowStaminaHuman.x)^2 +
        ((moveResolve attackTestState.mapObstacles lowStaminaHuman 1 1).2 -
          lowStaminaHuman.y)^2 ≤ 2 * (lowStaminaHuman.moveSpeed * (1/10))^2 := by
  have h := (moveResolve_displacement_bounds attackTestState.mapObstacles
    lowStaminaHuman 1 1 (by norm_num [lowStaminaHuman, zeroLivesHuman])
    (by norm_num [lowStaminaHuman, zeroLivesHuman])
    (by norm_num [lowStaminaHuman, zeroLivesHuman])
    (by norm_num [lowStaminaHuman, zeroLivesHuman])
    (by norm_num [lowStaminaHuman, zeroLivesHuman])).1
    (by norm_num [moveResolveFlags, firstCollidingObstacle, circleRectCollision,
      clampToMap, attackTestState, initialRoomState, lowStaminaHuman, zeroLivesHuman])
  exact ⟨h.1, h.2.2⟩

/-- Claim C3: every round-phase tick evaluates the win conditions on the
post-regeneration post-bot roster in fixed priority order — (a) gorilla hp ≤ 0 or
dead ⇒ `results`/`humans_win`; else (b) aggregate human lives ≤ 0 with zero
humans alive ⇒ `results`/`gorilla_wins`; else (c) round clock (incremented by
this tick's dt) at or past 300 s ⇒ `results` with `gorilla_wins_time_up` when any
human life remains and `draw_time_up` otherwise; else the phase is unchanged
(stays `round`). -/
theorem updateRound_win_priority (dt : ℚ) (botStep : List Player → List Player)
    (s : RoomState) :
    (∀ gp, s.gorillaPlayerId.bind (getPlayer (roundTickPlayers dt botStep s)) = some gp →
      gp.hp ≤ 0 ∨ gp.state = LifeState.dead →
      (updateRound dt botStep s).gamePhase = Phase.results ∧
        (updateRound dt botStep s).resultsReason = some "humans_win") ∧
    ((∀ gp, s.gorillaPlayerId.bind (getPlayer (roundTickPlayers dt botStep s)) = some gp →
        ¬(gp.hp ≤ 0 ∨ gp.state = LifeState.dead)) →
      currentTotalHumanLivesOf (roundTickPlayers dt botStep s) ≤ 0 →
      aliveHumansCountOf (roundTickPlayers dt botStep s) = 0 →
      (updateRound dt botStep s).gamePhase = Phase.results ∧
        (updateRound dt botStep s).resultsReason = some "gorilla_wins") ∧
    ((∀ gp, s.gorillaPlayerId.bind (getPlayer (roundTickPlayers dt botStep s)) = some gp →
        ¬(gp.hp ≤ 0 ∨ gp.state = LifeState.dead)) →
      ¬(currentTotalHumanLivesOf (roundTickPlayers dt botStep s) ≤ 0 ∧
          aliveHumansCountOf (roundTickPlayers dt botStep s) = 0) →
      s.roundTime + dt ≥ 300 →
      (updateRound dt botStep s).gamePhase = Phase.results ∧
        (updateRound dt botStep s).resultsReason =
          some (if currentTotalHumanLivesOf (roundTickPlayers dt botStep s) > 0
            then "gorilla_wins_time_up" else "draw_time_up")) ∧
    ((∀ gp, s.gorillaPlayerId.bind (getPlayer (roundTickPlayers dt botStep s)) = some gp →
        ¬(gp.hp ≤ 0 ∨ gp.state = LifeState.dead)) →
      ¬(currentTotalHumanLivesOf (roundTickPlayers dt botStep s) ≤ 0 ∧
          aliveHumansCountOf (roundTickPlayers dt botStep s) = 0) →
      s.roundTime + dt < 300 →
      (updateRound dt botStep s).gamePhase = s.gamePhase ∧
        (updateRound dt botStep s).resultsReason = s.resultsReason ∧
        (updateRound dt botStep s).roundTime = s.roundTime + dt) := by
  refine ⟨?_, ?_, ?_, ?_⟩
  · intro gp hgp hdown
    simp only [updateRound, hgp]
    rw [if_pos hdown]
    exact ⟨rfl, rfl⟩
  · intro hnd hl hc
    simp only [updateRound]
    cases hgb : s.gorillaPlayerId.bind (getPlayer (roundTickPlayers dt botStep s)) with
    | none =>
      dsimp only
      rw [if_pos ⟨hl, hc⟩]
      exact ⟨rfl, rfl⟩
    | some gp =>
      dsimp only
      rw [if_neg (hnd gp hgb), if_pos ⟨hl, hc⟩]
      exact ⟨rfl, rfl⟩
  · intro hnd hout ht
    simp only [updateRound]
    cases hgb : s.gorillaPlayerId.bind (getPlayer (roundTickPlayers dt botStep s)) with
    | none =>
      dsimp only
      rw [if_neg hout, if_pos ht]
      exact ⟨rfl, rfl⟩
    | some gp =>
      dsimp only
      rw [if_neg (hnd gp hgb), if_neg hout, if_pos ht]
      exact ⟨rfl, rfl⟩
  · intro hnd hout ht
    simp only [updateRound]
    cases hgb : s.gorillaPlayerId.bind (getPlayer (roundTickPlayers dt botStep s)) with
    | none =>
      dsimp only
      rw [if_neg hout, if_neg (not_le.mpr ht)]
      exact ⟨rfl, rfl, rfl⟩
    | some gp =>
      dsimp only
      rw [if_neg (hnd gp hgb), if_neg hout, if_neg (not_le.mpr ht)]
      exact ⟨rfl, rfl, rfl⟩

/-- A playing gorilla whose hp has been depleted to 0. -/
def downGorilla : Player := { sampleGorilla with hp := 0 }

/-- A round-phase room holding only the depleted gorilla. -/
def roundState0 : RoomState :=
  { initialRoomState with
      gamePhase := Phase.round
      players := [downGorilla]
      gorillaPlayerId := some "g1" }

/-- Closed instance of claim C3: one tick on `roundState0` (gorilla at hp 0)
transitions the phase to `results` with reason `humans_win`. -/
theorem updateRound_win_priority_witness :
    (updateRound 1 id roundState0).gamePhase = Phase.results ∧
      (updateRound 1 id roundState0).resultsReason = some "humans_win" :=
  (updateRound_win_priority 1 id roundState0).1 downGorilla (by decide) (by decide)

/-! ## Map-semantics lemmas for the players collection -/

lemma getPlayer_id_eq {ps : List Player} {id : String} {p : Player}
    (h : getPlayer ps id = some p) : p.id = id := by
  have := List.find?_some h
  simpa using this

lemma find?_map_replace (ps : List Player) (p : Player)
    (hany : ps.any (fun q => q.id = p.id) = true) :
    (ps.map fun q => if q.id = p.id then p else q).find?
      (fun q => q.id = p.id) = some p := by
  induction ps with
  | nil => simp at hany
  | cons a as ih =>
    simp only [List.map_cons]
    by_cases ha : a.id = p.id
    · rw [if_pos ha]
      exact List.find?_cons_of_pos _ (by simp)
    · rw [if_neg ha]
      rw [List.find?_cons_of_neg _ (by simpa using ha)]
      apply ih
      rcases List.any_eq_true.1 hany with ⟨x, hx, hxp⟩
      rcases List.mem_cons.1 hx with rfl | hx'
      · exact absurd (by simpa using hxp) ha
      · exact List.any_eq_true.2 ⟨x, hx', hxp⟩

lemma find?_append_single (ps : List Player) (p : Player)
    (hany : ps.any (fun q => q.id = p.id) = false) :
    (ps ++ [p]).find? (fun q => q.id = p.id) = some p := by
  induction ps with
  | nil => simp [List.find?]
  | cons a as ih =>
    simp only [List.any_cons, Bool.or_eq_false_iff] at hany
    simp only [List.cons_append]
    rw [List.find?_cons_of_neg _ (by simpa using hany.1)]
    exact ih hany.2

lemma getPlayer_putPlayer_self (ps : List Player) (p : Player) :
    getPlayer (putPlayer ps p) p.id = some p := by
  unfold putPlayer getPlayer
  split_ifs with hany
  · exact find?_map_replace ps p hany
  · exact find?_append_single ps p (by simpa using hany)

lemma find?_map_replace_ne (ps : List Player) (p : Player) (id : String)
    (hne : id ≠ p.id) :
    (ps.map fun q => if q.id = p.id then p else q).find? (fun q => q.id = id) =
      ps.find? (fun q => q.id = id) := by
  induction ps with
  | nil => simp
  | cons a as ih =>
    simp only [List.map_cons]
    by_cases ha : a.id = p.id
    · rw [if_pos ha]
      rw [List.find?_cons_of_neg _ (by simpa using fun h : p.id = id => hne h.symm),
        List.find?_cons_of_neg _
          (by simpa using fun h : a.id = id => hne ((ha.symm.trans h).symm))]
      exact ih
    · rw [if_neg ha]
      by_cases hb : a.id = id
      · rw [List.find?_cons_of_pos _ (by simpa using hb),
          List.find?_cons_of_pos _ (by simpa using hb)]
      · rw [List.find?_cons_of_neg _ (by simpa using hb),
          List.find?_cons_of_neg _ (by simpa using hb)]
        exact ih

lemma find?_append_single_ne (ps : List Player) (p : Player) (id : String)
    (hne : id ≠ p.id) :
    (ps ++ [p]).find? (fun q => q.id = id) = ps.find? (fun q => q.id = id) := by
  induction ps with
  | nil =>
    simp only [List.nil_append, List.find?]
    rw [show (decide (p.id = id)) = false by simpa using fun h : p.id = id => hne h.symm]
  | cons a as ih =>
    simp only [List.cons_append]
    by_cases hb : a.id = id
    · rw [List.find?_cons_of_pos _ (by simpa using hb),
        List.find?_cons_of_pos _ (by simpa using hb)]
    · rw [List.find?_cons_of_neg _ (by simpa using hb),
        List.find?_cons_of_neg _ (by simpa using hb)]
      exact ih

lemma getPlayer_putPlayer_ne (ps : List Player) (p : Player) (id : String)
    (hne : id ≠ p.id) : getPlayer (putPlayer ps p) id = getPlayer ps id := by
  unfold putPlayer getPlayer
  split_ifs with hany
  · exact find?_map_replace_ne ps p id hne
  · exact find?_append_single_ne ps p id hne

lemma setPlayerDefaults_id (u v : ℚ) (p : Player) :
    (setPlayerDefaults u v p).id = p.id := rfl

lemma setPlayerDefaults_role (u v : ℚ) (p : Player) :
    (setPlayerDefaults u v p).role = p.role := rfl

lemma tryAssignGorilla_phase (u v : ℚ) (s : RoomState) :
    (tryAssignGorilla u v s).gamePhase = s.gamePhase ∧
      (tryAssignGorilla u v s).resultsReason = s.resultsReason := by
  unfold tryAssignGorilla
  cases hq : s.gorillaQueue with
  | nil => cases hg : s.gorillaPlayerId <;> exact ⟨rfl, rfl⟩
  | cons hid rest =>
    cases hg : s.gorillaPlayerId with
    | some oid => exact ⟨rfl, rfl⟩
    | none =>
      dsimp only
      cases hp : getPlayer s.players hid <;> exact ⟨rfl, rfl⟩

lemma tryAssignGorilla_promotes (u v : ℚ) (s : RoomState)
    (hgid : s.gorillaPlayerId = none) (hid : String) (rest : List String)
    (hq : s.gorillaQueue = hid :: rest) (p : Player)
    (hp : getPlayer s.players hid = some p) :
    (tryAssignGorilla u v s).gorillaPlayerId = some hid ∧
      getPlayer (tryAssignGorilla u v s).players hid =
        some (setPlayerDefaults u v { p with role := Role.gorilla }) := by
  unfold tryAssignGorilla
  rw [hq, hgid]
  dsimp only
  rw [hp]
  dsimp only
  refine ⟨rfl, ?_⟩
  have hgidp : (setPlayerDefaults u v { p with role := Role.gorilla }).id = hid := by
    rw [setPlayerDefaults_id]
    show p.id = hid
    exact getPlayer_id_eq hp
  rw [← hgidp]
  exact getPlayer_putPlayer_self _ _

/-- Claim C7: when the gorilla role holder departs (via `onLeave` or a human
role reselection, both of which call `handleGorillaLeave`), a departure during
the round phase immediately transitions to `results` with reason
`humans_win_gorilla_left`; during lobby or countdown no results transition
happens and the queued candidate at the head of the FIFO (if one is present in
the room and is not the departing holder itself) is promoted to the gorilla
role. -/
theorem handleGorillaLeave_transitions (u v : ℚ) (s : RoomState) :
    (s.gamePhase = Phase.round →
      (handleGorillaLeave u v s).gamePhase = Phase.results ∧
        (handleGorillaLeave u v s).resultsReason = some "humans_win_gorilla_left") ∧
    (s.gamePhase = Phase.lobby ∨ s.gamePhase = Phase.countdown →
      (handleGorillaLeave u v s).gamePhase = s.gamePhase ∧
        (handleGorillaLeave u v s).resultsReason = s.resultsReason ∧
        ∀ hid rest, s.gorillaQueue = hid :: rest → s.gorillaPlayerId ≠ some hid →
          ∀ p, getPlayer s.players hid = some p →
            (handleGorillaLeave u v s).gorillaPlayerId = some hid ∧
            ∃ q, getPlayer (handleGorillaLeave u v s).players hid = some q ∧
              q.role = Role.gorilla) := by
  constructor
  · intro hphase
    simp only [handleGorillaLeave, startResultsPhase]
    rw [if_pos hphase]
    cases hgid : s.gorillaPlayerId with
    | none => exact ⟨rfl, rfl⟩
    | some oid =>
      dsimp only
      cases hfg : getPlayer s.players oid with
      | none => exact ⟨rfl, rfl⟩
      | some fg =>
        dsimp only
        split_ifs <;> exact ⟨rfl, rfl⟩
  · intro hphase
    have hnotround : ¬ s.gamePhase = Phase.round := by
      rcases hphase with h | h <;> simp [h]
    simp only [handleGorillaLeave]
    rw [if_neg hnotround, if_pos hphase]
    have hTA := tryAssignGorilla_phase u v { s with gorillaPlayerId := none }
    cases hgid : s.gorillaPlayerId with
    | none =>
      dsimp only
      refine ⟨hTA.1, hTA.2, ?_⟩
      intro hid rest hq _ p hp
      have hPro := tryAssignGorilla_promotes u v { s with gorillaPlayerId := none }
        rfl hid rest hq p hp
      exact ⟨hPro.1, ⟨setPlayerDefaults u v { p with role := Role.gorilla }, hPro.2, rfl⟩⟩
    | some oid =>
      dsimp only
      cases hfg : getPlayer (tryAssignGorilla u v { s with gorillaPlayerId := none }).players
          oid with
      | none =>
        dsimp only
        refine ⟨hTA.1, hTA.2, ?_⟩
        intro hid rest hq _ p hp
        have hPro := tryAssignGorilla_promotes u v { s with gorillaPlayerId := none }
          rfl hid rest hq p hp
        exact ⟨hPro.1, ⟨setPlayerDefaults u v { p with role := Role.gorilla }, hPro.2, rfl⟩⟩
      | some fg =>
        dsimp only
        split_ifs with hrole
        · refine ⟨hTA.1, hTA.2, ?_⟩
          intro hid rest hq hne p hp
          have hPro := tryAssignGorilla_promotes u v { s with gorillaPlayerId := none }
            rfl hid rest hq p hp
          refine ⟨hPro.1, ⟨setPlayerDefaults u v { p with role := Role.gorilla }, ?_, rfl⟩⟩
          have hoid : hid ≠ (setPlayerDefaults u v { fg with role := Role.human }).id := by
            rw [setPlayerDefaults_id]
            have : fg.id = oid := getPlayer_id_eq hfg
            rw [this]
            intro h
            exact hne (by rw [h])
          rw [getPlayer_putPlayer_ne _ _ _ hoid]
          exact hPro.2
        · refine ⟨hTA.1, hTA.2, ?_⟩
          intro hid rest hq _ p hp
          have hPro := tryAssignGorilla_promotes u v { s with gorillaPlayerId := none }
            rfl hid rest hq p hp
          exact ⟨hPro.1, ⟨setPlayerDefaults u v { p with role := Role.gorilla }, hPro.2, rfl⟩⟩

/-- A round-phase room whose gorilla holder "g1" has just been deleted. -/
def leaveRoundState : RoomState :=
  { initialRoomState with gamePhase := Phase.round, gorillaPlayerId := some "g1" }

/-- A lobby room where the departing holder "g1" leaves behind a queued
candidate "h1" who is still present. -/
def leaveLobbyState : RoomState :=
  { initialRoomState with
      players := [lowStaminaHuman]
      gorillaQueue := ["h1"]
      gorillaPlayerId := some "g1" }

/-- Closed instance of claim C7: a round-phase departure forces
`results`/`humans_win_gorilla_left`, and a lobby departure promotes the queued
candidate "h1" instead. -/
theorem handleGorillaLeave_transitions_witness :
    (handleGorillaLeave 0 0 leaveRoundState).gamePhase = Phase.results ∧
      (handleGorillaLeave 0 0 leaveRoundState).resultsReason =
        some "humans_win_gorilla_left" ∧
      (handleGorillaLeave 0 0 leaveLobbyState).gorillaPlayerId = some "h1" := by
  have h1 := (handleGorillaLeave_transitions 0 0 leaveRoundState).1 rfl
  have h2 := ((handleGorillaLeave_transitions 0 0 leaveLobbyState).2 (Or.inl rfl)).2.2
    "h1" [] rfl (by decide) lowStaminaHuman (by decide)
  exact ⟨h1.1, h1.2, h2.1⟩

/-! ## Gorilla-role uniqueness (claim C8) -/

/-- The structural invariant behind gorilla uniqueness: player ids are distinct
(the `MapSchema` key property) and any entity holding the gorilla role is the
one registered in `gorillaPlayerId`. -/
def GorillaRoleInv (s : RoomState) : Prop :=
  (s.players.map Player.id).Nodup ∧
    ∀ p ∈ s.players, p.role = Role.gorilla → s.gorillaPlayerId = some p.id

instance : DecidablePred GorillaRoleInv := fun s => by
  unfold GorillaRoleInv; infer_instance

/-- At most one entity has role gorilla. -/
def AtMostOneGorilla (s : RoomState) : Prop :=
  ∀ p ∈ s.players, ∀ q ∈ s.players,
    p.role = Role.gorilla → q.role = Role.gorilla → p = q

lemma nodup_putPlayer {ps : List Player} (hnd : (ps.map Player.id).Nodup)
    (p : Player) : ((putPlayer ps p).map Player.id).Nodup := by
  unfold putPlayer
  split_ifs with hany
  · have hmap : (ps.map fun q => if q.id = p.id then p else q).map Player.id =
        ps.map Player.id := by
      rw [List.map_map]
      apply List.map_congr_left
      intro q _
      by_cases h : q.id = p.id
      · simp [h]
      · simp [h]
    rw [hmap]
    exact hnd
  · rw [List.map_append]
    refine List.Nodup.append hnd (List.nodup_singleton _) ?_
    intro a ha hb
    simp only [List.map_cons, List.map_nil, List.mem_singleton] at hb
    subst hb
    rcases List.mem_map.1 ha with ⟨q, hq, hqid⟩
    exact hany (List.any_eq_true.2 ⟨q, hq, by simpa using hqid⟩)

lemma getPlayer_mem_nodup {ps : List Player} {q : Player}
    (hnd : (ps.map Player.id).Nodup) (hq : q ∈ ps) :
    getPlayer ps q.id = some q := by
  induction ps with
  | nil => simp at hq
  | cons a as ih =>
    simp only [List.map_cons, List.nodup_cons] at hnd
    rcases List.mem_cons.1 hq with rfl | hq'
    · unfold getPlayer
      exact List.find?_cons_of_pos _ (by simp)
    · unfold getPlayer
      rw [List.find?_cons_of_neg _ ?_]
      · exact ih hnd.2 hq'
      · simp only [decide_eq_true_eq]
        intro h
        exact hnd.1 (h ▸ List.mem_map_of_mem Player.id hq')

lemma tryAssignGorilla_preserves (u v : ℚ) (s : RoomState)
    (h : GorillaRoleInv s) : GorillaRoleInv (tryAssignGorilla u v s) := by
  obtain ⟨hnd, hinv⟩ := h
  unfold tryAssignGorilla
  cases hq : s.gorillaQueue with
  | nil => cases hgid : s.gorillaPlayerId <;> exact ⟨hnd, hinv⟩
  | cons hid rest =>
    cases hgid : s.gorillaPlayerId with
    | some x => exact ⟨hnd, hinv⟩
    | none =>
      dsimp only
      cases hp : getPlayer s.players hid with
      | none =>
        dsimp only
        refine ⟨hnd, fun p hp' hr => ?_⟩
        have := hinv p hp' hr
        rw [hgid] at this
        exact this
      | some gp =>
        dsimp only
        refine ⟨nodup_putPlayer hnd _, fun p hp' hr => ?_⟩
        rcases mem_putPlayer hp' with rfl | ⟨hmem, hne⟩
        · show some hid = some gp.id
          rw [getPlayer_id_eq hp]
        · have := hinv p hmem hr
          rw [hgid] at this
          exact absurd this (by simp)

lemma tryAssignGorilla_preserves_weak (u v : ℚ) (s : RoomState) (oid : String)
    (hnd : (s.players.map Player.id).Nodup)
    (hg : ∀ p ∈ s.players, p.role = Role.gorilla → p.id = oid) :
    ((tryAssignGorilla u v s).players.map Player.id).Nodup ∧
      ∀ p ∈ (tryAssignGorilla u v s).players, p.role = Role.gorilla →
        (tryAssignGorilla u v s).gorillaPlayerId = some p.id ∨ p.id = oid := by
  unfold tryAssignGorilla
  cases hq : s.gorillaQueue with
  | nil =>
    cases hgid : s.gorillaPlayerId <;>
      exact ⟨hnd, fun p hp hr => Or.inr (hg p hp hr)⟩
  | cons hid rest =>
    cases hgid : s.gorillaPlayerId with
    | some x => exact ⟨hnd, fun p hp hr => Or.inr (hg p hp hr)⟩
    | none =>
      dsimp only
      cases hp : getPlayer s.players hid with
      | none =>
        dsimp only
        exact ⟨hnd, fun p hp' hr => Or.inr (hg p hp' hr)⟩
      | some gp =>
        dsimp only
        refine ⟨nodup_putPlayer hnd _, fun p hp' hr => ?_⟩
        rcases mem_putPlayer hp' with rfl | ⟨hmem, hne⟩
        · left
          show some hid = some gp.id
          rw [getPlayer_id_eq hp]
        · exact Or.inr (hg p hmem hr)

lemma handleGorillaLeave_preserves (u v : ℚ) (s : RoomState)
    (h : GorillaRoleInv s) : GorillaRoleInv (handleGorillaLeave u v s) := by
  obtain ⟨hnd, hinv⟩ := h
  unfold handleGorillaLeave
  cases hgid : s.gorillaPlayerId with
  | none =>
    dsimp only
    have hng : ∀ p ∈ s.players, p.role ≠ Role.gorilla := by
      intro p hp hr
      have := hinv p hp hr
      rw [hgid] at this
      exact Option.noConfusion this
    split_ifs with h1 h2
    · exact ⟨hnd, fun p hp hr => absurd hr (hng p hp)⟩
    · exact tryAssignGorilla_preserves u v _
        ⟨hnd, fun p hp hr => absurd hr (hng p hp)⟩
    · exact ⟨hnd, fun p hp hr => absurd hr (hng p hp)⟩
  | some oid =>
    dsimp only
    have hQ : ∀ p ∈ s.players, p.role = Role.gorilla → p.id = oid := by
      intro p hp hr
      have := hinv p hp hr
      rw [hgid] at this
      exact (Option.some.inj this).symm
    have final_ok : ∀ s2 : RoomState, (s2.players.map Player.id).Nodup →
        (∀ p ∈ s2.players, p.role = Role.gorilla →
          s2.gorillaPlayerId = some p.id ∨ p.id = oid) →
        GorillaRoleInv (match getPlayer s2.players oid with
          | some formerGorillaPlayer =>
            if formerGorillaPlayer.role = Role.gorilla then
              let reverted :=
                setPlayerDefaults u v { formerGorillaPlayer with role := Role.human }
              { s2 with players := putPlayer s2.players reverted }
            else s2
          | none => s2) := by
      intro s2 hnd2 hR
      cases hfg : getPlayer s2.players oid with
      | none =>
        dsimp only
        refine ⟨hnd2, fun p hp hr => ?_⟩
        rcases hR p hp hr with h | h
        · exact h
        · exfalso
          have hgm := getPlayer_mem_nodup hnd2 hp
          rw [h, hfg] at hgm
          exact Option.noConfusion hgm
      | some fg =>
        dsimp only
        split_ifs with hrole
        · refine ⟨nodup_putPlayer hnd2 _, fun p hp hr => ?_⟩
          rcases mem_putPlayer hp with rfl | ⟨hmem, hne⟩
          · exact absurd hr (fun hh => Role.noConfusion hh)
          · rcases hR p hmem hr with h | h
            · exact h
            · exfalso
              apply hne
              rw [setPlayerDefaults_id]
              show p.id = fg.id
              rw [h, getPlayer_id_eq hfg]
        · refine ⟨hnd2, fun p hp hr => ?_⟩
          rcases hR p hp hr with h | h
          · exact h
          · exfalso
            have hgm := getPlayer_mem_nodup hnd2 hp
            rw [h, hfg] at hgm
            exact hrole ((Option.some.inj hgm) ▸ hr)
    split_ifs with h1 h2
    · exact final_ok _ hnd (fun p hp hr => Or.inr (hQ p hp hr))
    · have hW := tryAssignGorilla_preserves_weak u v
        { s with gorillaPlayerId := none } oid hnd hQ
      exact final_ok _ hW.1 hW.2
    · exact final_ok _ hnd (fun p hp hr => Or.inr (hQ p hp hr))

lemma resetPlayersFrom_map_id (spawn : ℕ → ℚ × ℚ) (i : ℕ) (ps : List Player) :
    (resetPlayersFrom spawn i ps).map Player.id = ps.map Player.id := by
  induction ps generalizing i with
  | nil => rfl
  | cons p rest ih =>
    simp only [resetPlayersFrom, List.map_cons]
    rw [ih]
    rfl

lemma mem_resetPlayersFrom {spawn : ℕ → ℚ × ℚ} {i : ℕ} {ps : List Player}
    {q : Player} (hq : q ∈ resetPlayersFrom spawn i ps) :
    ∃ p ∈ ps, q.id = p.id ∧ q.role = p.role := by
  induction ps generalizing i with
  | nil => simp [resetPlayersFrom] at hq
  | cons p rest ih =>
    rw [resetPlayersFrom] at hq
    rcases List.mem_cons.1 hq with rfl | hq'
    · exact ⟨p, by simp, rfl, rfl⟩
    · obtain ⟨p0, hp0, h1, h2⟩ := ih hq'
      exact ⟨p0, by simp [hp0], h1, h2⟩

lemma addNewBotToState_preserves (botId : String) (pos : ℚ × ℚ) (s : RoomState)
    (h : GorillaRoleInv s) : GorillaRoleInv (addNewBotToState botId pos s) := by
  obtain ⟨hnd, hinv⟩ := h
  refine ⟨nodup_putPlayer hnd _, fun p hp hr => ?_⟩
  rcases mem_putPlayer hp with rfl | ⟨hmem, hne⟩
  · exact absurd hr (fun hh => Role.noConfusion hh)
  · exact hinv p hmem hr

lemma foldl_addBots_preserves (botSupply : ℕ → String × ℚ × ℚ) (l : List ℕ) :
    ∀ s : RoomState, GorillaRoleInv s →
      GorillaRoleInv (l.foldl
        (fun acc i => addNewBotToState (botSupply i).1 (botSupply i).2 acc) s) := by
  induction l with
  | nil => intro s h; simpa using h
  | cons i rest ih =>
    intro s h
    simp only [List.foldl_cons]
    exact ih _ (addNewBotToState_preserves _ _ _ h)

lemma spawnBots_preserves (botSupply : ℕ → String × ℚ × ℚ) (s : RoomState)
    (h : GorillaRoleInv s) : GorillaRoleInv (spawnBots botSupply s) := by
  simp only [spawnBots]
  exact foldl_addBots_preserves botSupply _ s h

lemma startRound_preserves (spawn : ℕ → ℚ × ℚ) (ug vg : ℚ)
    (botSupply : ℕ → String × ℚ × ℚ) (s : RoomState) (h : GorillaRoleInv s) :
    GorillaRoleInv (startRound spawn ug vg botSupply s) := by
  obtain ⟨hnd, hinv⟩ := h
  unfold startRound
  have hnd1 : ((resetPlayersFrom spawn 0 s.players).map Player.id).Nodup := by
    rw [resetPlayersFrom_map_id]
    exact hnd
  have hinv1 : ∀ p ∈ resetPlayersFrom spawn 0 s.players,
      p.role = Role.gorilla → s.gorillaPlayerId = some p.id := by
    intro p hp hr
    obtain ⟨p0, hp0, hid, hrole⟩ := mem_resetPlayersFrom hp
    rw [hid]
    exact hinv p0 hp0 (hrole ▸ hr)
  cases hgid : s.gorillaPlayerId with
  | none =>
    dsimp only
    refine ⟨hnd1, fun p hp hr => ?_⟩
    have := hinv1 p hp hr
    rw [hgid] at this
    exact this
  | some gid =>
    dsimp only
    cases hgp : getPlayer (resetPlayersFrom spawn 0 s.players) gid with
    | none =>
      dsimp only
      apply handleGorillaLeave_preserves
      refine ⟨hnd1, fun p hp hr => ?_⟩
      have := hinv1 p hp hr
      rw [hgid] at this
      exact this
    | some gorilla =>
      dsimp only
      apply spawnBots_preserves
      refine ⟨nodup_putPlayer hnd1 _, fun p hp hr => ?_⟩
      rcases mem_putPlayer hp with rfl | ⟨hmem, hne⟩
      · show some gid = some gorilla.id
        rw [getPlayer_id_eq hgp]
      · have := hinv1 p hmem hr
        rw [hgid] at this
        exact this

lemma putPlayer_human_preserves {s : RoomState} (h : GorillaRoleInv s)
    (p : Player) (hp : p.role = Role.human) :
    GorillaRoleInv { s with players := putPlayer s.players p } := by
  obtain ⟨hnd, hinv⟩ := h
  refine ⟨nodup_putPlayer hnd _, fun q hq hr => ?_⟩
  rcases mem_putPlayer hq with rfl | ⟨hmem, hne⟩
  · rw [hp] at hr
    exact absurd hr (fun hh => Role.noConfusion hh)
  · exact hinv q hmem hr

lemma handleRoleSelection_preserves (u v : ℚ) (s : RoomState)
    (sessionId desiredRole : String) (h : GorillaRoleInv s) :
    GorillaRoleInv (handleRoleSelection u v s sessionId desiredRole) := by
  unfold handleRoleSelection
  cases hp : getPlayer s.players sessionId with
  | none => exact h
  | some player =>
    dsimp only
    split_ifs <;>
      first
      | exact h
      | exact ⟨h.1, h.2⟩
      | exact tryAssignGorilla_preserves u v _ ⟨h.1, h.2⟩
      | exact handleGorillaLeave_preserves u v _
          (putPlayer_human_preserves h (setPlayerDefaults u v { player with role := Role.human }) rfl)
      | exact putPlayer_human_preserves h (setPlayerDefaults u v { player with role := Role.human }) rfl

lemma onJoin_preserves (u v : ℚ) (s : RoomState) (sessionId nickname : String)
    (h : GorillaRoleInv s) : GorillaRoleInv (onJoin u v s sessionId nickname) :=
  putPlayer_human_preserves h (setPlayerDefaults u v (newPlayer sessionId nickname)) rfl

lemma onLeave_preserves (u v : ℚ) (s : RoomState) (sessionId : String)
    (h : GorillaRoleInv s) : GorillaRoleInv (onLeave u v s sessionId) := by
  obtain ⟨hnd, hinv⟩ := h
  unfold onLeave
  cases hp : getPlayer s.players sessionId with
  | none => exact ⟨hnd, hinv⟩
  | some player =>
    dsimp only
    have hnd1 : ((s.players.filter fun p => p.id ≠ sessionId).map Player.id).Nodup :=
      hnd.sublist (List.Sublist.map _ (List.filter_sublist _))
    have hinv1 : ∀ p ∈ s.players.filter (fun p => p.id ≠ sessionId),
        p.role = Role.gorilla → s.gorillaPlayerId = some p.id :=
      fun p hp' hr => hinv p (List.mem_of_mem_filter hp') hr
    split_ifs with hgid
    · exact handleGorillaLeave_preserves u v _ ⟨hnd1, hinv1⟩
    · exact ⟨hnd1, hinv1⟩

/-- The room operations the claim quantifies over: role selection, gorilla
assignment, gorilla departure handling, round start, and the join/leave entity
lifecycle they act on.  Each constructor carries the random draws / generated
ids the corresponding source function consumes. -/
inductive RoomOp where
  | roleSelect (u v : ℚ) (sessionId desiredRole : String)
  | assignGorilla (u v : ℚ)
  | gorillaLeave (u v : ℚ)
  | roundStart (spawn : ℕ → ℚ × ℚ) (ug vg : ℚ) (botSupply : ℕ → String × ℚ × ℚ)
  | join (u v : ℚ) (sessionId nickname : String)
  | leave (u v : ℚ) (sessionId : String)

/-- Apply one room operation. -/
def applyRoomOp (s : RoomState) : RoomOp → RoomState
  | RoomOp.roleSelect u v sessionId desiredRole =>
      handleRoleSelection u v s sessionId desiredRole
  | RoomOp.assignGorilla u v => tryAssignGorilla u v s
  | RoomOp.gorillaLeave u v => handleGorillaLeave u v s
  | RoomOp.roundStart spawn ug vg botSupply => startRound spawn ug vg botSupply s
  | RoomOp.join u v sessionId nickname => onJoin u v s sessionId nickname
  | RoomOp.leave u v sessionId => onLeave u v s sessionId

/-- Apply a sequence of room operations in order. -/
def applyRoomOps (ops : List RoomOp) (s : RoomState) : RoomState :=
  ops.foldl applyRoomOp s

lemma applyRoomOp_preserves (s : RoomState) (op : RoomOp)
    (h : GorillaRoleInv s) : GorillaRoleInv (applyRoomOp s op) := by
  cases op with
  | roleSelect u v sessionId desiredRole =>
    exact handleRoleSelection_preserves u v s sessionId desiredRole h
  | assignGorilla u v => exact tryAssignGorilla_preserves u v s h
  | gorillaLeave u v => exact handleGorillaLeave_preserves u v s h
  | roundStart spawn ug vg botSupply =>
    exact startRound_preserves spawn ug vg botSupply s h
  | join u v sessionId nickname => exact onJoin_preserves u v s sessionId nickname h
  | leave u v sessionId => exact onLeave_preserves u v s sessionId h

lemma gorillaRoleInv_atMostOne {s : RoomState} (h : GorillaRoleInv s) :
    AtMostOneGorilla s := by
  obtain ⟨hnd, hinv⟩ := h
  intro p hp q hq hpr hqr
  have h1 := hinv p hp hpr
  have h2 := hinv q hq hqr
  rw [h1] at h2
  exact List.inj_on_of_nodup_map hnd hp hq (Option.some.inj h2)

/-- Claim C8: in every state reachable from a state satisfying the key/role
invariant (in particular the freshly created room) through role selection,
gorilla assignment, gorilla departure handling, round start, joins, and leaves,
at most one entity holds the gorilla role: `tryAssignGorilla` assigns only when
`gorillaPlayerId` is null, taking the FIFO head, so no sequence of these
operations produces two simultaneous gorillas. -/
theorem gorilla_role_unique (ops : List RoomOp) (s0 : RoomState)
    (h0 : GorillaRoleInv s0) :
    GorillaRoleInv (applyRoomOps ops s0) ∧ AtMostOneGorilla (applyRoomOps ops s0) := by
  suffices h : GorillaRoleInv (applyRoomOps ops s0) from
    ⟨h, gorillaRoleInv_atMostOne h⟩
  unfold applyRoomOps
  induction ops generalizing s0 with
  | nil => simpa using h0
  | cons op rest ih =>
    simp only [List.foldl_cons]
    exact ih _ (applyRoomOp_preserves s0 op h0)

/-- Closed instance of claim C8: two players join the fresh room, both request
the gorilla role (the first is assigned, the second stays queued), the holder
departs and the queued candidate is promoted — after this whole sequence at most
one entity has role gorilla. -/
theorem gorilla_role_unique_witness :
    AtMostOneGorilla (applyRoomOps
      [RoomOp.join 0 0 "a" "A", RoomOp.join 0 0 "b" "B",
       RoomOp.roleSelect 0 0 "a" "gorilla", RoomOp.roleSelect 0 0 "b" "gorilla",
       RoomOp.leave 0 0 "a"] initialRoomState) :=
  (gorilla_role_unique
    [RoomOp.join 0 0 "a" "A", RoomOp.join 0 0 "b" "B",
     RoomOp.roleSelect 0 0 "a" "gorilla", RoomOp.roleSelect 0 0 "b" "gorilla",
     RoomOp.leave 0 0 "a"] initialRoomState (by decide)).2

end GvH
